import Mathlib

/-!
# Verification of the microscan-driver configuration codec

A shallow embedding of `src/microscan/config.py` and `src/microscan/driver.py`
from the `jonemo/microscan-driver` repository.

Modelling conventions:
* Wire data (Python `bytes`) is `List Nat`, one entry per byte.
* Python values stored in setting-instance fields are `PyVal`
  (bytes / str / int / None).  Python enum members are represented by
  their `value` bytes; within one family each field position has a fixed
  enum type, so field-for-field equality of instances is list equality
  of their `PyVal` field lists.
* Python exceptions are the `PyErr` type; a fallible Python function
  becomes `Except PyErr _`.
* Each `K_PATTERN` regular expression is transliterated into the small
  `RE` type, and `re.match` is the backtracking matcher `reMatch`
  (anchored at the start of input, greedy quantifiers, leftmost
  alternation, capture groups that may or may not participate — the
  exact semantics the CPython `re` module gives these patterns).
-/

/-- Python exception kinds that the modelled code can raise.
`invalidConfigString` is the library's `InvalidConfigString`
(the spec calls it MalformedConfigString); `valueError`, `typeError`
and `keyError` are the Python builtins. -/
inductive PyErr where
  | invalidConfigString
  | valueError
  | typeError
  | keyError
deriving DecidableEq, Repr

/-- A Python value as stored in a setting-instance attribute:
bytes, str, int or None.  An enum member is represented by its
`value` bytes (see module docstring). -/
inductive PyVal where
  | pBytes (s : List Nat)
  | pStr (s : String)
  | pInt (n : Int)
  | pNone
deriving DecidableEq, Repr

/-- ASCII bytes of a string literal. -/
def bstr (s : String) : List Nat := s.toList.map Char.toNat

/-- ASCII decimal digit test (regex class `[\d]` on bytes). -/
def isDigitB (c : Nat) : Bool := 48 ≤ c && c ≤ 57

/-- Hex digit test (regex class `[0-9a-fA-F]`). -/
def isHexB (c : Nat) : Bool :=
  (48 ≤ c && c ≤ 57) || (97 ≤ c && c ≤ 102) || (65 ≤ c && c ≤ 70)

/-- The regex `.` on bytes without DOTALL: any byte except `\n` (10). -/
def isDotB (c : Nat) : Bool := c != 10

/-- Fuel-driven helper for `natDigits` (structural recursion on the
fuel, so that the kernel can evaluate it; the fuel `n` always
suffices since a number has at most as many digits as its value). -/
def natDigitsAux : Nat → Nat → List Nat
  | 0, n => [48 + n]
  | fuel + 1, n =>
    if n < 10 then [48 + n] else natDigitsAux fuel (n / 10) ++ [48 + n % 10]

/-- Decimal digits (as ASCII bytes, most significant first) of a natural
number, i.e. what Python's `str(n).encode('ascii')` produces for `n ≥ 0`. -/
def natDigits (n : Nat) : List Nat := natDigitsAux n n

/-- The fuel is irrelevant as long as it is at least the number. -/
theorem natDigitsAux_fuel (n : Nat) : ∀ fuel fuel', n ≤ fuel → n ≤ fuel' →
    natDigitsAux fuel n = natDigitsAux fuel' n := by
  induction n using Nat.strong_induction_on with
  | _ n ih =>
    intro fuel fuel' h h'
    rcases fuel with _ | f <;> rcases fuel' with _ | f'
    · rfl
    · have hn : n = 0 := by omega
      subst hn
      simp [natDigitsAux]
    · have hn : n = 0 := by omega
      subst hn
      simp [natDigitsAux]
    · simp only [natDigitsAux]
      split
      · rfl
      · rename_i hn
        rw [ih (n / 10) (Nat.div_lt_self (by omega) (by omega)) f f'
          (by omega) (by omega)]

/-- The defining recurrence of `natDigits`. -/
theorem natDigits_eq (n : Nat) :
    natDigits n = if n < 10 then [48 + n] else natDigits (n / 10) ++ [48 + n % 10] := by
  show natDigitsAux n n = _
  rcases n with _ | m
  · simp [natDigitsAux]
  · simp only [natDigitsAux]
    split
    · rfl
    · rename_i hn
      rw [natDigitsAux_fuel ((m + 1) / 10) m ((m + 1) / 10) (by omega)
        (Nat.le_refl _)]
      rfl

/-- `str(n).encode('ascii')` for a Python int. -/
def intStr (n : Int) : List Nat :=
  if n < 0 then 45 :: natDigits n.natAbs else natDigits n.natAbs

/-- Value of a string of decimal digit bytes. -/
def decVal (ds : List Nat) : Nat := ds.foldl (fun a d => a * 10 + (d - 48)) 0

/-- Python `int(bytes)`: an optional sign followed by a nonempty digit
run parses as decimal; everything else raises ValueError.  (CPython also
allows surrounding whitespace and underscores, which never occur in the
strings this library handles.) -/
def parsePyInt (s : List Nat) : Option Int :=
  match s with
  | [] => none
  | c :: rest =>
    if c = 43 then
      if rest ≠ [] ∧ rest.all isDigitB then some (decVal rest) else none
    else if c = 45 then
      if rest ≠ [] ∧ rest.all isDigitB then some (-(decVal rest : Int)) else none
    else
      if (c :: rest).all isDigitB then some (decVal (c :: rest)) else none

section NatDigitsLemmas

theorem natDigits_all_digit (n : Nat) : (natDigits n).all isDigitB = true := by
  induction n using Nat.strong_induction_on with
  | _ n ih =>
    rw [natDigits_eq]
    split
    · simp only [List.all_cons, List.all_nil, Bool.and_true, isDigitB,
        Bool.and_eq_true, decide_eq_true_eq]
      omega
    · rename_i h
      rw [List.all_append, Bool.and_eq_true]
      refine ⟨ih (n / 10) (Nat.div_lt_self (by omega) (by omega)), ?_⟩
      simp only [List.all_cons, List.all_nil, Bool.and_true, isDigitB,
        Bool.and_eq_true, decide_eq_true_eq]
      have : n % 10 < 10 := Nat.mod_lt _ (by omega)
      omega

theorem natDigits_length_pos (n : Nat) : 1 ≤ (natDigits n).length := by
  rw [natDigits_eq]
  split
  · simp
  · simp

theorem natDigits_length_le (n k : Nat) (hk : 1 ≤ k) (h : n < 10 ^ k) :
    (natDigits n).length ≤ k := by
  induction n using Nat.strong_induction_on generalizing k with
  | _ n ih =>
    rw [natDigits_eq]
    split
    · simpa using hk
    · rename_i hge
      rw [List.length_append]
      simp only [List.length_cons, List.length_nil]
      have hk2 : 2 ≤ k := by
        by_contra hc
        have : k = 1 := by omega
        subst this
        simp at h
        omega
      have hdiv : n / 10 < 10 ^ (k - 1) := by
        rw [Nat.div_lt_iff_lt_mul (by omega)]
        have : 10 ^ (k - 1) * 10 = 10 ^ k := by
          rw [← pow_succ]
          congr 1
          omega
        omega
      have := ih (n / 10) (Nat.div_lt_self (by omega) (by omega)) (k - 1) (by omega) hdiv
      omega

theorem natDigits_length_ge_two (n : Nat) (h : 10 ≤ n) : 2 ≤ (natDigits n).length := by
  rw [natDigits_eq]
  split
  · omega
  · rw [List.length_append]
    have := natDigits_length_pos (n / 10)
    simp only [List.length_cons, List.length_nil]
    omega

theorem decVal_append_single (ds : List Nat) (d : Nat) :
    decVal (ds ++ [d]) = decVal ds * 10 + (d - 48) := by
  simp [decVal, List.foldl_append]

theorem decVal_natDigits (n : Nat) : decVal (natDigits n) = n := by
  induction n using Nat.strong_induction_on with
  | _ n ih =>
    rw [natDigits_eq]
    split
    · simp [decVal]
    · rename_i h
      rw [decVal_append_single, ih (n / 10) (Nat.div_lt_self (by omega) (by omega))]
      omega

theorem natDigits_head_digit (n : Nat) :
    ∃ c cs, natDigits n = c :: cs ∧ isDigitB c = true := by
  have hall := natDigits_all_digit n
  have hpos := natDigits_length_pos n
  cases hd : natDigits n with
  | nil => rw [hd] at hpos; simp at hpos
  | cons c cs =>
    rw [hd] at hall
    simp only [List.all_cons, Bool.and_eq_true] at hall
    exact ⟨c, cs, rfl, hall.1⟩

theorem parsePyInt_natDigits (n : Nat) : parsePyInt (natDigits n) = some (n : Int) := by
  obtain ⟨c, cs, hd, hc⟩ := natDigits_head_digit n
  have hall := natDigits_all_digit n
  have hval := decVal_natDigits n
  rw [hd] at hall hval ⊢
  have hc43 : c ≠ 43 := by simp [isDigitB] at hc; omega
  have hc45 : c ≠ 45 := by simp [isDigitB] at hc; omega
  simp only [parsePyInt, if_neg hc43, if_neg hc45, hall, if_pos rfl]
  exact congrArg some (congrArg _ hval)

end NatDigitsLemmas

/-! ## The regex engine

`re.match` with the constructs these `K_PATTERN`s use: literals,
single-byte character classes, greedy counted repetition of a class
(`{m,n}`, `*`), greedy option (`?`), leftmost alternation (`|`),
capture groups and the `$` anchor.  Matching is anchored at the start
(that is `re.match`) and, absent `$`, may leave a remainder.
-/

/-- Capture list: `(group index, captured bytes)` for each group that
participated in the match, innermost-completed first. -/
abbrev Caps := List (Nat × List Nat)

/-- Regular expression abstract syntax. -/
inductive RE where
  | lit (s : List Nat)
  | cls (p : Nat → Bool)
  | seq (a b : RE)
  | alt (a b : RE)
  | opt (a : RE)
  | grp (i : Nat) (a : RE)
  | reps (p : Nat → Bool) (lo : Nat) (hi : Option Nat)
  | eos

/-- Ordered choice: first result if it exists, else the second. -/
def ror (a b : Option Caps) : Option Caps :=
  match a with
  | some x => some x
  | none => b

/-- Can the bounded repetition still consume a character? -/
def hiOk : Option Nat → Bool
  | none => true
  | some h => h != 0

/-- Decrement the repetition bound. -/
def hiDec : Option Nat → Option Nat
  | none => none
  | some h => some (h - 1)

/-- Greedy matcher for `p{lo,hi}` (or `p*` when `hi = none`) in
continuation-passing style: consume as many `p`-bytes as allowed, and on
failure of the continuation backtrack to shorter matches, never below
`lo` consumed bytes. -/
def mreps (p : Nat → Bool) : Nat → Option Nat → Caps → List Nat →
    (Caps → List Nat → Option Caps) → Option Caps
  | lo, _, caps, [], k => if lo = 0 then k caps [] else none
  | lo, hi, caps, c :: rest, k =>
    if hiOk hi && p c then
      ror (mreps p (lo - 1) (hiDec hi) caps rest k)
        (if lo = 0 then k caps (c :: rest) else none)
    else
      if lo = 0 then k caps (c :: rest) else none

/-- The backtracking matcher in continuation-passing style.  `mrun r caps s k`
tries to match a prefix of `s` against `r` and calls `k` with the updated
captures and the remainder; alternatives are tried in the order CPython's
`re` engine tries them (greedy, leftmost). -/
def mrun : RE → Caps → List Nat → (Caps → List Nat → Option Caps) → Option Caps
  | .lit l, caps, s, k => if l.isPrefixOf s then k caps (s.drop l.length) else none
  | .cls p, caps, s, k =>
    match s with
    | [] => none
    | c :: rest => if p c then k caps rest else none
  | .seq a b, caps, s, k => mrun a caps s fun caps1 s1 => mrun b caps1 s1 k
  | .alt a b, caps, s, k => ror (mrun a caps s k) (mrun b caps s k)
  | .opt a, caps, s, k => ror (mrun a caps s k) (k caps s)
  | .grp i a, caps, s, k =>
    mrun a caps s fun caps1 s1 => k ((i, s.take (s.length - s1.length)) :: caps1) s1
  | .reps p lo hi, caps, s, k => mreps p lo hi caps s k
  | .eos, caps, s, k =>
    match s with
    | [] => k caps []
    | _ :: _ => none

/-- `re.match(pattern, s)`: anchored at the start of `s`; the returned
captures are the match object's groups. -/
def reMatch (r : RE) (s : List Nat) : Option Caps :=
  mrun r [] s fun caps _ => some caps

/-- `match.group(i)`: `none` when the group did not participate. -/
def capGet (caps : Caps) (i : Nat) : Option (List Nat) :=
  (caps.find? (fun e => e.1 == i)).map (·.2)

/-- Concatenation of a pattern list (helper to transliterate the
concrete `K_PATTERN`s). -/
def rcat (l : List RE) : RE := l.foldr RE.seq (.lit [])

/-! ### Matcher lemmas

Symbolic evaluation rules for `mrun`, shaped after the slot kinds that
occur in the `K_PATTERN`s: a literal, a one-byte class group, an
optional group over a greedy counted class repetition, and the
`(.|escape)` alternation.  Greedy backtracking shows up as `ror`
alternatives; each rule's hypotheses pin down the alternative CPython
would take first.
-/

theorem take_len_sub (xs t : List Nat) :
    (xs ++ t).take ((xs ++ t).length - t.length) = xs := by
  rw [List.length_append, show xs.length + t.length - t.length = xs.length from by omega]
  exact List.take_left xs t

theorem run_lit (l t : List Nat) (caps : Caps) (k : Caps → List Nat → Option Caps) :
    mrun (.lit l) caps (l ++ t) k = k caps t := by
  simp only [mrun]
  rw [if_pos (List.isPrefixOf_iff_prefix.mpr (List.prefix_append l t)), List.drop_left]

theorem run_cls {p : Nat → Bool} {c : Nat} (hpc : p c = true) (t : List Nat)
    (caps : Caps) (k : Caps → List Nat → Option Caps) :
    mrun (.cls p) caps (c :: t) k = k caps t := by
  simp [mrun, hpc]

theorem run_seq (a b : RE) (caps : Caps) (s : List Nat)
    (k : Caps → List Nat → Option Caps) :
    mrun (.seq a b) caps s k = mrun a caps s fun c1 s1 => mrun b c1 s1 k := rfl

theorem run_opt_none {a : RE} {caps : Caps} {s : List Nat}
    {k : Caps → List Nat → Option Caps} (hnone : mrun a caps s k = none) :
    mrun (.opt a) caps s k = k caps s := by
  simp [mrun, hnone, ror]

theorem run_grp_cls {p : Nat → Bool} {c : Nat} (hpc : p c = true) (i : Nat)
    (t : List Nat) (caps : Caps) (k : Caps → List Nat → Option Caps) :
    mrun (.grp i (.cls p)) caps (c :: t) k = k ((i, [c]) :: caps) t := by
  simp [mrun, hpc]

theorem run_opt_grp_cls {p : Nat → Bool} {c : Nat} {i : Nat} {t : List Nat}
    {caps : Caps} {k : Caps → List Nat → Option Caps} {r : Caps}
    (hpc : p c = true)
    (hk : k ((i, [c]) :: caps) t = some r) :
    mrun (.opt (.grp i (.cls p))) caps (c :: t) k = some r := by
  show ror (mrun (.grp i (.cls p)) caps (c :: t) k) (k caps (c :: t)) = some r
  rw [run_grp_cls hpc, hk]
  rfl

theorem mreps_exact {p : Nat → Bool} {k : Caps → List Nat → Option Caps} {r : Caps} :
    ∀ (xs : List Nat) {lo : Nat} {hi : Option Nat} {t : List Nat} {caps : Caps},
    xs.all p = true → lo ≤ xs.length →
    (∀ h, hi = some h → xs.length ≤ h) →
    (∀ c, t.head? = some c → p c = false) →
    k caps t = some r →
    mreps p lo hi caps (xs ++ t) k = some r := by
  intro xs
  induction xs with
  | nil =>
    intro lo hi t caps hall hlo hhi hhead hk
    have hlo0 : lo = 0 := Nat.le_zero.mp hlo
    subst hlo0
    rw [List.nil_append]
    cases t with
    | nil => simpa [mreps] using hk
    | cons c rest =>
      have hpc := hhead c rfl
      simp [mreps, hpc, hk]
  | cons x xs ih =>
    intro lo hi t caps hall hlo hhi hhead hk
    simp only [List.all_cons, Bool.and_eq_true] at hall
    have hok : hiOk hi = true := by
      cases hi with
      | none => rfl
      | some h =>
        have := hhi h rfl
        simp only [List.length_cons] at this
        simp [hiOk]
        omega
    rw [List.cons_append]
    simp only [mreps, hok, hall.1, Bool.and_self, if_true]
    rw [ih hall.2 (by simp at hlo ⊢; omega)
      (by
        intro h' hh'
        cases hi with
        | none => simp [hiDec] at hh'
        | some h =>
          have := hhi h rfl
          simp only [hiDec, Option.some.injEq] at hh'
          simp only [List.length_cons] at this
          omega)
      hhead hk]
    rfl

theorem mreps_none_short {p : Nat → Bool} {k : Caps → List Nat → Option Caps} {L : Nat}
    (hn : ∀ c u, u.length < L → k c u = none) :
    ∀ (u : List Nat) (lo : Nat) (hi : Option Nat) (caps : Caps), u.length < L →
    mreps p lo hi caps u k = none := by
  intro u
  induction u with
  | nil =>
    intro lo hi caps h
    simp only [mreps]
    split
    · exact hn _ _ h
    · rfl
  | cons c rest ih =>
    intro lo hi caps h
    simp only [List.length_cons] at h
    simp only [mreps]
    split
    · rw [ih (lo - 1) (hiDec hi) caps (by omega)]
      show (if lo = 0 then k caps (c :: rest) else none) = none
      split
      · exact hn _ _ (by simp; omega)
      · rfl
    · split
      · exact hn _ _ (by simp; omega)
      · rfl

theorem mreps_at_target {p : Nat → Bool} {k : Caps → List Nat → Option Caps} {r : Caps}
    (tgt : List Nat) (hi : Option Nat) (caps : Caps)
    (hshort : ∀ c u, u.length < tgt.length → k c u = none)
    (hk : k caps tgt = some r) :
    mreps p 0 hi caps tgt k = some r := by
  cases tgt with
  | nil => simpa [mreps] using hk
  | cons c rest =>
    simp only [mreps]
    split
    · rw [mreps_none_short hshort rest 0 (hiDec hi) caps (by simp)]
      simpa [ror] using hk
    · simpa using hk

theorem mreps_tail {p : Nat → Bool} {k : Caps → List Nat → Option Caps} {r : Caps}
    {tgt : List Nat} :
    ∀ (xs : List Nat) {lo : Nat} {hi : Option Nat} {caps : Caps},
    xs.all p = true → lo ≤ xs.length →
    (∀ h, hi = some h → xs.length ≤ h) →
    (∀ c u, u.length < tgt.length → k c u = none) →
    k caps tgt = some r →
    mreps p lo hi caps (xs ++ tgt) k = some r := by
  intro xs
  induction xs with
  | nil =>
    intro lo hi caps hall hlo hhi hshort hk
    have hlo0 : lo = 0 := Nat.le_zero.mp hlo
    subst hlo0
    rw [List.nil_append]
    exact mreps_at_target tgt hi caps hshort hk
  | cons x xs ih =>
    intro lo hi caps hall hlo hhi hshort hk
    simp only [List.all_cons, Bool.and_eq_true] at hall
    have hok : hiOk hi = true := by
      cases hi with
      | none => rfl
      | some h =>
        have := hhi h rfl
        simp only [List.length_cons] at this
        simp [hiOk]
        omega
    rw [List.cons_append]
    simp only [mreps, hok, hall.1, Bool.and_self, if_true]
    rw [ih hall.2 (by simp at hlo ⊢; omega)
      (by
        intro h' hh'
        cases hi with
        | none => simp [hiDec] at hh'
        | some h =>
          have := hhi h rfl
          simp only [hiDec, Option.some.injEq] at hh'
          simp only [List.length_cons] at this
          omega)
      hshort hk]
    rfl

theorem run_grp_reps_exact {p : Nat → Bool} {xs t : List Nat} {i lo : Nat}
    {hi : Option Nat} {caps : Caps} {k : Caps → List Nat → Option Caps} {r : Caps}
    (hall : xs.all p = true) (hlo : lo ≤ xs.length)
    (hhi : ∀ h, hi = some h → xs.length ≤ h)
    (hhead : ∀ c, t.head? = some c → p c = false)
    (hk : k ((i, xs) :: caps) t = some r) :
    mrun (.grp i (.reps p lo hi)) caps (xs ++ t) k = some r := by
  show mreps p lo hi caps (xs ++ t)
    (fun caps1 s1 =>
      k ((i, (xs ++ t).take ((xs ++ t).length - s1.length)) :: caps1) s1) = some r
  apply mreps_exact xs hall hlo hhi hhead
  simpa [take_len_sub] using hk

theorem run_opt_grp_reps_exact {p : Nat → Bool} {xs t : List Nat} {i lo : Nat}
    {hi : Option Nat} {caps : Caps} {k : Caps → List Nat → Option Caps} {r : Caps}
    (hall : xs.all p = true) (hlo : lo ≤ xs.length)
    (hhi : ∀ h, hi = some h → xs.length ≤ h)
    (hhead : ∀ c, t.head? = some c → p c = false)
    (hk : k ((i, xs) :: caps) t = some r) :
    mrun (.opt (.grp i (.reps p lo hi))) caps (xs ++ t) k = some r := by
  show ror (mrun (.grp i (.reps p lo hi)) caps (xs ++ t) k) (k caps (xs ++ t)) = some r
  rw [run_grp_reps_exact hall hlo hhi hhead hk]
  rfl

theorem run_opt_grp_reps_tail {p : Nat → Bool} {xs tgt : List Nat} {i lo : Nat}
    {hi : Option Nat} {caps : Caps} {k : Caps → List Nat → Option Caps} {r : Caps}
    (hall : xs.all p = true) (hlo : lo ≤ xs.length)
    (hhi : ∀ h, hi = some h → xs.length ≤ h)
    (hshort : ∀ c u, u.length < tgt.length → k c u = none)
    (hk : k ((i, xs) :: caps) tgt = some r) :
    mrun (.opt (.grp i (.reps p lo hi))) caps (xs ++ tgt) k = some r := by
  show ror (mrun (.grp i (.reps p lo hi)) caps (xs ++ tgt) k) (k caps (xs ++ tgt)) = some r
  have hgrp : mrun (.grp i (.reps p lo hi)) caps (xs ++ tgt) k = some r := by
    show mreps p lo hi caps (xs ++ tgt)
      (fun caps1 s1 =>
        k ((i, (xs ++ tgt).take ((xs ++ tgt).length - s1.length)) :: caps1) s1) = some r
    apply mreps_tail xs hall hlo hhi
    · intro c u hu
      exact hshort _ _ hu
    · simpa [take_len_sub] using hk
  rw [hgrp]
  rfl

theorem run_opt_grp_alt_dot {c : Nat} {esc : RE} {i : Nat} {t : List Nat}
    {caps : Caps} {k : Caps → List Nat → Option Caps} {r : Caps}
    (h10 : isDotB c = true)
    (hk : k ((i, [c]) :: caps) t = some r) :
    mrun (.opt (.grp i (.alt (.cls isDotB) esc))) caps (c :: t) k = some r := by
  show ror (mrun (.grp i (.alt (.cls isDotB) esc)) caps (c :: t) k) (k caps (c :: t)) = some r
  have hgrp : mrun (.grp i (.alt (.cls isDotB) esc)) caps (c :: t) k = some r := by
    show ror
      (mrun (.cls isDotB) caps (c :: t)
        (fun caps1 s1 =>
          k ((i, (c :: t).take ((c :: t).length - s1.length)) :: caps1) s1))
      (mrun esc caps (c :: t)
        (fun caps1 s1 =>
          k ((i, (c :: t).take ((c :: t).length - s1.length)) :: caps1) s1)) = some r
    rw [run_cls h10]
    have hcap : (c :: t).take ((c :: t).length - t.length) = [c] := by
      simpa using take_len_sub [c] t
    rw [show ((i, (c :: t).take ((c :: t).length - t.length)) :: caps) =
        ((i, [c]) :: caps) from by rw [hcap], hk]
    rfl
  rw [hgrp]
  rfl

/-! ## The setting codec framework (`config.py`)

`KSetting.to_config_string` normalizes the per-family value list to
bytes, formats `<K_CODE,v1,...,vn>` and re-checks the result against
the family's own decode pattern (`config.py` lines 46-80).  Each
family's `from_config_string` matches its `K_PATTERN` and, when the
match fails, the `match.groups()` `AttributeError` is caught and
re-raised as `InvalidConfigString`; the per-slot conversions in the
final `cls(...)` call happen *outside* that `try` block, so their
errors (`ValueError` from an enum or `int()`, `TypeError` from
`int(None)`, `KeyError` from the baud table) propagate as they are.
-/

/-- `normalize_value` inside `KSetting.to_config_string`: bytes pass
through, `None` becomes empty, anything else is `str(val).encode('ascii')`. -/
def normalize_value : PyVal → List Nat
  | .pBytes s => s
  | .pNone => []
  | .pStr s => bstr s
  | .pInt n => intStr n

/-- `b','.join(values)`. -/
def joinComma : List (List Nat) → List Nat
  | [] => []
  | [v] => v
  | v :: vs => v ++ 44 :: joinComma vs

/-- The `b'<%s,%s>' % (K_CODE, b','.join(values))` formatting step of
`KSetting.to_config_string` after value normalization. -/
def kstr (kCode : List Nat) (values : List PyVal) : List Nat :=
  (60 :: kCode) ++ (44 :: joinComma (values.map normalize_value)) ++ [62]

/-- `KSetting.to_config_string` (`config.py` lines 46-80): build
`<K_CODE,...>` from the normalized values and verify it against the
family's decode pattern, raising `InvalidConfigString` otherwise. -/
def KSetting_to_config_string (kCode : List Nat) (pat : RE) (values : List PyVal) :
    Except PyErr (List Nat) :=
  if (reMatch pat (kstr kCode values)).isSome then .ok (kstr kCode values)
  else .error .invalidConfigString

/-- Python enum conversion `SomeEnum(b)` for the single-byte enums of
`config.py`: `vals` is the list of member values; a non-member argument
(including `None`) raises `ValueError`. -/
def pyEnum (vals : List (List Nat)) : Option (List Nat) → Except PyErr PyVal
  | none => .error .valueError
  | some b => if vals.contains b then .ok (.pBytes b) else .error .valueError

/-- `int(group)` applied to a decoded group: `int(None)` raises
`TypeError`, a non-numeric byte string raises `ValueError`. -/
def pyInt (g : Option (List Nat)) : Except PyErr PyVal :=
  match g with
  | none => .error .typeError
  | some s =>
    match parsePyInt s with
    | some n => .ok (.pInt n)
    | none => .error .valueError

/-- A pass-through character group: participating group gives its bytes,
absent group gives `None`. -/
def pyRaw : Option (List Nat) → Except PyErr PyVal
  | none => .ok .pNone
  | some b => .ok (.pBytes b)

/-- `BAUD_RATES` (`config.py` lines 103-113): wire digit to bits per second. -/
def BAUD_RATES : List (List Nat × Int) :=
  [([48], 600), ([49], 1200), ([50], 2400), ([51], 4800), ([52], 9600),
   ([53], 19200), ([54], 38400), ([55], 57600), ([56], 115200)]

/-- `_serialize_baud_rate` (`config.py` lines 116-124): inverted-table
dict lookup.  The `except IndexError:` handler in the source does not
catch the `KeyError` a Python dict miss raises, so an out-of-table baud
rate (or a non-int attribute) escapes as an uncaught `KeyError`; the
descriptive `ValueError` in the handler is dead code. -/
def serialize_baud_rate (v : PyVal) : Except PyErr (List Nat) :=
  match v with
  | .pInt n =>
    match BAUD_RATES.find? (fun e => e.2 == n) with
    | some e => .ok e.1
    | none => .error .keyError
  | _ => .error .keyError

/-- `_deserialize_baud_rate` (`config.py` lines 127-133): direct
`BAUD_RATES` dict lookup; same dead `except IndexError:` handler, so an
unknown wire digit raises `KeyError`. -/
def deserialize_baud_rate (g : Option (List Nat)) : Except PyErr PyVal :=
  match g with
  | some b =>
    match BAUD_RATES.find? (fun e => e.1 == b) with
    | some e => .ok (.pInt e.2)
    | none => .error .keyError
  | none => .error .keyError

/-- One registered setting family: its class name, `K_CODE`,
`K_PATTERN`, number of capture groups, default field values
(the `__init__` defaults), the body of its `to_config_string`
(instance fields to the value list handed to
`KSetting.to_config_string`) and the body of its
`from_config_string` after a successful match (group accessor to
instance fields, conversions in the source's evaluation order). -/
structure KFamily where
  clsName : String
  kCode : List Nat
  pattern : RE
  nGroups : Nat
  defaults : List PyVal
  toVals : List PyVal → Except PyErr (List PyVal)
  conv : (Nat → Option (List Nat)) → Except PyErr (List PyVal)

/-- A family's `to_config_string`. -/
def famToConfigString (f : KFamily) (fields : List PyVal) : Except PyErr (List Nat) :=
  f.toVals fields >>= KSetting_to_config_string f.kCode f.pattern

/-- A family's `from_config_string`: on a failed match the caught
`AttributeError` becomes `InvalidConfigString`; on success the per-slot
conversions run (and may raise). -/
def famFromConfigString (f : KFamily) (s : List Nat) : Except PyErr (List PyVal) :=
  match reMatch f.pattern s with
  | none => .error .invalidConfigString
  | some caps => f.conv (fun i => capGet caps i)

/-- `decode(encode(instance))` for one family. -/
def famRoundTrip (f : KFamily) (fields : List PyVal) : Except PyErr (List PyVal) :=
  famToConfigString f fields >>= famFromConfigString f

/-! ## The registered setting families

One `KFamily` per class in `config.py`'s `REGISTRY`, in registry
(source) order.  Patterns are transliterated byte-for-byte from each
class's `K_PATTERN` (`clsR a b` is the character class `[a-b]`,
`isDotB` is `.`, `isDigitB` is `[\d]`, `isHexB` is `[0-9a-fA-F]`,
`escCls` is the `\^[A-Z\[\\\]\^_]` escape alternative of `ASCII_CHAR`).
`re.match` is start-anchored, so a leading `^` and its absence coincide;
`RS232AuxiliaryPort.K_PATTERN` is the one pattern without a trailing
`$`, hence no `.eos`.
-/

/-- Character class `[a-b]` on byte values. -/
def clsR (a b : Nat) : RE := .cls (fun c => a ≤ c && c ≤ b)

/-- The escaped-control-character alternative of `ASCII_CHAR`:
`\^[A-Z\[\\\]\^_]`, i.e. `^` followed by one byte in 65..95. -/
def escCls : RE := .seq (.lit [94]) (.cls (fun c => 65 ≤ c && c ≤ 95))

/-- Member values of the two-state enums (`b'0'`/`b'1'`). -/
def vals01 : List (List Nat) := [[48], [49]]

/-- Member values of the three-state enums (`b'0'`/`b'1'`/`b'2'`). -/
def vals02 : List (List Nat) := [[48], [49], [50]]

/-- Member values of the six-state enums (`AuxiliaryPortMode`, `TriggerMode`). -/
def vals05 : List (List Nat) := [[48], [49], [50], [51], [52], [53]]

/-- Member values of `Protocol` (`b'0'`..`b'7'`). -/
def vals07 : List (List Nat) := [[48], [49], [50], [51], [52], [53], [54], [55]]

/-- `HostPortConnection` (`config.py` lines 136-182). -/
def HostPortConnection : KFamily where
  clsName := "HostPortConnection"
  kCode := bstr "K100"
  pattern := rcat [.lit (bstr "<K100,"), .grp 1 (clsR 48 56), .lit [44],
    .grp 2 (clsR 48 50), .lit [44], .grp 3 (clsR 48 49), .lit [44],
    .grp 4 (clsR 48 49), .lit [62], .eos]
  nGroups := 4
  defaults := [.pInt 9600, .pBytes [48], .pBytes [48], .pBytes [48]]
  toVals := fun fs =>
    match fs with
    | [baud, parity, stop, data] => do
      let bd ← serialize_baud_rate baud
      .ok [.pBytes bd, parity, stop, data]
    | _ => .error .typeError
  conv := fun g => do
    let baud ← deserialize_baud_rate (g 1)
    let parity ← pyEnum vals02 (g 2)
    let stop ← pyEnum vals01 (g 3)
    let data ← pyEnum vals01 (g 4)
    .ok [baud, parity, stop, data]

/-- `HostProtocol` (`config.py` lines 199-234); the `(,.*)?` tail group
is captured but discarded by `from_config_string`. -/
def HostProtocol : KFamily where
  clsName := "HostProtocol"
  kCode := bstr "K140"
  pattern := rcat [.lit (bstr "<K140,"), .grp 1 (clsR 48 55),
    .opt (.grp 2 (.seq (.lit [44]) (.reps isDotB 0 none))), .lit [62], .eos]
  nGroups := 2
  defaults := [.pBytes [48]]
  toVals := fun fs => .ok fs
  conv := fun g => do
    let p ← pyEnum vals07 (g 1)
    .ok [p]

/-- `HostRS422Status` (`config.py` lines 245-288). -/
def HostRS422Status : KFamily where
  clsName := "HostRS422Status"
  kCode := bstr "K102"
  pattern := rcat [.lit (bstr "<K102,"), .opt (.grp 1 (clsR 48 49)),
    .lit [62], .eos]
  nGroups := 1
  defaults := [.pBytes [48]]
  toVals := fun fs => .ok fs
  conv := fun g => do
    let s ← pyEnum vals01 (g 1)
    .ok [s]

/-- `RS232AuxiliaryPort` (`config.py` lines 308-369); its `K_PATTERN`
has no `^`/`$` anchors and the default `daisy_chain_id` is the *str*
`'1/'`. -/
def RS232AuxiliaryPort : KFamily where
  clsName := "RS232AuxiliaryPort"
  kCode := bstr "K101"
  pattern := rcat [.lit (bstr "<K101,"), .grp 1 (clsR 48 53), .lit [44],
    .grp 2 (clsR 48 56), .lit [44], .grp 3 (clsR 48 50), .lit [44],
    .grp 4 (clsR 48 49), .lit [44], .grp 5 (clsR 48 49), .lit [44],
    .grp 6 (clsR 48 49), .lit [44], .opt (.grp 7 (.reps isDotB 1 (some 2))),
    .lit [62]]
  nGroups := 7
  defaults := [.pBytes [48], .pInt 9600, .pBytes [48], .pBytes [48],
    .pBytes [48], .pBytes [48], .pStr "1/"]
  toVals := fun fs =>
    match fs with
    | [mode, baud, parity, stop, data, dstat, did] => do
      let bd ← serialize_baud_rate baud
      .ok [mode, .pBytes bd, parity, stop, data, dstat, did]
    | _ => .error .typeError
  conv := fun g => do
    let mode ← pyEnum vals05 (g 1)
    let baud ← deserialize_baud_rate (g 2)
    let parity ← pyEnum vals02 (g 3)
    let stop ← pyEnum vals01 (g 4)
    let data ← pyEnum vals01 (g 5)
    let dstat ← pyEnum vals01 (g 6)
    let did ← pyRaw (g 7)
    .ok [mode, baud, parity, stop, data, dstat, did]

/-- `Preamble` (`config.py` lines 380-414). -/
def Preamble : KFamily where
  clsName := "Preamble"
  kCode := bstr "K141"
  pattern := rcat [.lit (bstr "<K141,"), .opt (.grp 1 (clsR 48 49)), .lit [44],
    .opt (.grp 2 (.reps isDotB 1 (some 4))), .lit [62], .eos]
  nGroups := 2
  defaults := [.pBytes [48], .pNone]
  toVals := fun fs => .ok fs
  conv := fun g => do
    let s ← pyEnum vals01 (g 1)
    let ch ← pyRaw (g 2)
    .ok [s, ch]

/-- `Postamble` (`config.py` lines 425-459). -/
def Postamble : KFamily where
  clsName := "Postamble"
  kCode := bstr "K142"
  pattern := rcat [.lit (bstr "<K142,"), .opt (.grp 1 (clsR 48 49)), .lit [44],
    .opt (.grp 2 (.reps isDotB 1 (some 4))), .lit [62], .eos]
  nGroups := 2
  defaults := [.pBytes [48], .pNone]
  toVals := fun fs => .ok fs
  conv := fun g => do
    let s ← pyEnum vals01 (g 1)
    let ch ← pyRaw (g 2)
    .ok [s, ch]

/-- `LRC` (`config.py` lines 470-512). -/
def LRC : KFamily where
  clsName := "LRC"
  kCode := bstr "K145"
  pattern := rcat [.lit (bstr "<K145,"), .opt (.grp 1 (clsR 48 49)),
    .lit [62], .eos]
  nGroups := 1
  defaults := [.pBytes [48]]
  toVals := fun fs => .ok fs
  conv := fun g => do
    let s ← pyEnum vals01 (g 1)
    .ok [s]

/-- `InterCharacterDelay` (`config.py` lines 518-556). -/
def InterCharacterDelay : KFamily where
  clsName := "InterCharacterDelay"
  kCode := bstr "K144"
  pattern := rcat [.lit (bstr "<K144,"), .opt (.grp 1 (.reps isDigitB 1 (some 3))),
    .lit [62], .eos]
  nGroups := 1
  defaults := [.pInt 0]
  toVals := fun fs => .ok fs
  conv := fun g => do
    let d ← pyInt (g 1)
    .ok [d]

/-- `Multisymbol` (`config.py` lines 562-605); the default separator is
the *str* `','`. -/
def Multisymbol : KFamily where
  clsName := "Multisymbol"
  kCode := bstr "K222"
  pattern := rcat [.lit (bstr "<K222,"), .opt (.grp 1 (clsR 49 53)), .lit [44],
    .opt (.grp 2 (.cls isDotB)), .lit [62], .eos]
  nGroups := 2
  defaults := [.pInt 1, .pStr ","]
  toVals := fun fs => .ok fs
  conv := fun g => do
    let n ← pyInt (g 1)
    let sep ← pyRaw (g 2)
    .ok [n, sep]

/-- `Trigger` (`config.py` lines 620-662). -/
def Trigger : KFamily where
  clsName := "Trigger"
  kCode := bstr "K200"
  pattern := rcat [.lit (bstr "<K200,"), .opt (.grp 1 (clsR 48 53)), .lit [44],
    .opt (.grp 2 (.reps isDigitB 0 none)), .lit [62], .eos]
  nGroups := 2
  defaults := [.pBytes [48], .pInt 244]
  toVals := fun fs => .ok fs
  conv := fun g => do
    let m ← pyEnum vals05 (g 1)
    let d ← pyInt (g 2)
    .ok [m, d]

/-- `ExternalTrigger` (`config.py` lines 673-714); default state is
`Positive` (`b'1'`). -/
def ExternalTrigger : KFamily where
  clsName := "ExternalTrigger"
  kCode := bstr "K202"
  pattern := rcat [.lit (bstr "<K202,"), .opt (.grp 1 (clsR 48 49)),
    .lit [62], .eos]
  nGroups := 1
  defaults := [.pBytes [49]]
  toVals := fun fs => .ok fs
  conv := fun g => do
    let s ← pyEnum vals01 (g 1)
    .ok [s]

/-- `SerialTrigger` (`config.py` lines 720-757); pattern `(.|\^\])?`,
default character is the *str* `'^'`. -/
def SerialTrigger : KFamily where
  clsName := "SerialTrigger"
  kCode := bstr "K201"
  pattern := rcat [.lit (bstr "<K201,"),
    .opt (.grp 1 (.alt (.cls isDotB) (.lit (bstr "^]")))), .lit [62], .eos]
  nGroups := 1
  defaults := [.pStr "^"]
  toVals := fun fs => .ok fs
  conv := fun g => do
    let c ← pyRaw (g 1)
    .ok [c]

/-- `StartTriggerCharacter` (`config.py` lines 763-808): two hex digits
on the wire, default `None`. -/
def StartTriggerCharacter : KFamily where
  clsName := "StartTriggerCharacter"
  kCode := bstr "K229"
  pattern := rcat [.lit (bstr "<K229,"), .opt (.grp 1 (.reps isHexB 2 (some 2))),
    .lit [62], .eos]
  nGroups := 1
  defaults := [.pNone]
  toVals := fun fs => .ok fs
  conv := fun g => do
    let c ← pyRaw (g 1)
    .ok [c]

/-- `StopTriggerCharacter` (`config.py` lines 811-856). -/
def StopTriggerCharacter : KFamily where
  clsName := "StopTriggerCharacter"
  kCode := bstr "K230"
  pattern := rcat [.lit (bstr "<K230,"), .opt (.grp 1 (.reps isHexB 2 (some 2))),
    .lit [62], .eos]
  nGroups := 1
  defaults := [.pNone]
  toVals := fun fs => .ok fs
  conv := fun g => do
    let c ← pyRaw (g 1)
    .ok [c]

/-- `EndReadCycle` (`config.py` lines 868-914). -/
def EndReadCycle : KFamily where
  clsName := "EndReadCycle"
  kCode := bstr "K220"
  pattern := rcat [.lit (bstr "<K220,"), .opt (.grp 1 (clsR 48 50)), .lit [44],
    .opt (.grp 2 (.reps isDigitB 0 none)), .lit [62], .eos]
  nGroups := 2
  defaults := [.pBytes [48], .pInt 100]
  toVals := fun fs => .ok fs
  conv := fun g => do
    let m ← pyEnum vals02 (g 1)
    let t ← pyInt (g 2)
    .ok [m, t]

/-- `DecodesBeforeOutput` (`config.py` lines 925-971). -/
def DecodesBeforeOutput : KFamily where
  clsName := "DecodesBeforeOutput"
  kCode := bstr "K221"
  pattern := rcat [.lit (bstr "<K221,"), .opt (.grp 1 (.reps isDigitB 1 (some 3))),
    .lit [44], .opt (.grp 2 (clsR 48 49)), .lit [62], .eos]
  nGroups := 2
  defaults := [.pInt 1, .pBytes [48]]
  toVals := fun fs => .ok fs
  conv := fun g => do
    let n ← pyInt (g 1)
    let m ← pyEnum vals01 (g 2)
    .ok [n, m]

/-- `ScanSpeed` (`config.py` lines 977-1020). -/
def ScanSpeed : KFamily where
  clsName := "ScanSpeed"
  kCode := bstr "K500"
  pattern := rcat [.lit (bstr "<K500,"), .opt (.grp 1 (.reps isDigitB 2 (some 3))),
    .lit [62], .eos]
  nGroups := 1
  defaults := [.pInt 350]
  toVals := fun fs => .ok fs
  conv := fun g => do
    let s ← pyInt (g 1)
    .ok [s]

/-- `ScannerSetup` (`config.py` lines 1031-1094). -/
def ScannerSetup : KFamily where
  clsName := "ScannerSetup"
  kCode := bstr "K504"
  pattern := rcat [.lit (bstr "<K504,"), .opt (.grp 1 (.reps isDigitB 2 (some 3))),
    .lit [44], .opt (.grp 2 (clsR 48 50)), .lit [44],
    .opt (.grp 3 (.reps isDigitB 2 (some 3))), .lit [44],
    .opt (.grp 4 (.reps isDigitB 2 (some 3))), .lit [62], .eos]
  nGroups := 4
  defaults := [.pInt 350, .pBytes [50], .pInt 70, .pInt 245]
  toVals := fun fs => .ok fs
  conv := fun g => do
    let gain ← pyInt (g 1)
    let mode ← pyEnum vals02 (g 2)
    let mn ← pyInt (g 3)
    let mx ← pyInt (g 4)
    .ok [gain, mode, mn, mx]

/-- `SymbolDetect` (`config.py` lines 1105-1153). -/
def SymbolDetect : KFamily where
  clsName := "SymbolDetect"
  kCode := bstr "K505"
  pattern := rcat [.lit (bstr "<K505,"), .opt (.grp 1 (clsR 48 49)), .lit [44],
    .opt (.grp 2 (.reps isDigitB 1 (some 3))), .lit [62], .eos]
  nGroups := 2
  defaults := [.pBytes [48], .pInt 14]
  toVals := fun fs => .ok fs
  conv := fun g => do
    let s ← pyEnum vals01 (g 1)
    let c ← pyInt (g 2)
    .ok [s, c]

/-- `MaximumElement` (`config.py` lines 1159-1197). -/
def MaximumElement : KFamily where
  clsName := "MaximumElement"
  kCode := bstr "K502"
  pattern := rcat [.lit (bstr "<K502,"), .opt (.grp 1 (.reps isDigitB 1 (some 5))),
    .lit [62], .eos]
  nGroups := 1
  defaults := [.pInt 0]
  toVals := fun fs => .ok fs
  conv := fun g => do
    let m ← pyInt (g 1)
    .ok [m]

/-- `ScanWidthEnhance` (`config.py` lines 1208-1250). -/
def ScanWidthEnhance : KFamily where
  clsName := "ScanWidthEnhance"
  kCode := bstr "K511"
  pattern := rcat [.lit (bstr "<K511,"), .opt (.grp 1 (clsR 48 49)),
    .lit [62], .eos]
  nGroups := 1
  defaults := [.pBytes [48]]
  toVals := fun fs => .ok fs
  conv := fun g => do
    let s ← pyEnum vals01 (g 1)
    .ok [s]

/-- `LaserSetup` (`config.py` lines 1272-1340). -/
def LaserSetup : KFamily where
  clsName := "LaserSetup"
  kCode := bstr "K700"
  pattern := rcat [.lit (bstr "<K700,"), .opt (.grp 1 (clsR 48 49)), .lit [44],
    .opt (.grp 2 (clsR 48 49)), .lit [44],
    .opt (.grp 3 (.reps isDigitB 2 (some 2))), .lit [44],
    .opt (.grp 4 (.reps isDigitB 2 (some 2))), .lit [44],
    .opt (.grp 5 (clsR 48 50)), .lit [62], .eos]
  nGroups := 5
  defaults := [.pBytes [49], .pBytes [49], .pInt 10, .pInt 95, .pBytes [50]]
  toVals := fun fs => .ok fs
  conv := fun g => do
    let onoff ← pyEnum vals01 (g 1)
    let framing ← pyEnum vals01 (g 2)
    let onp ← pyInt (g 3)
    let offp ← pyInt (g 4)
    let pw ← pyEnum vals02 (g 5)
    .ok [onoff, framing, onp, offp, pw]

/-- `Code39` (`config.py` lines 1376-1454). -/
def Code39 : KFamily where
  clsName := "Code39"
  kCode := bstr "K470"
  pattern := rcat [.lit (bstr "<K470,"), .opt (.grp 1 (clsR 48 49)), .lit [44],
    .opt (.grp 2 (clsR 48 49)), .lit [44], .opt (.grp 3 (clsR 48 49)), .lit [44],
    .opt (.grp 4 (clsR 48 49)), .lit [44], .opt (.grp 5 (clsR 48 49)), .lit [44],
    .opt (.grp 6 (.reps isDigitB 1 (some 2))), .lit [44],
    .opt (.grp 7 (clsR 48 49)), .lit [62], .eos]
  nGroups := 7
  defaults := [.pBytes [49], .pBytes [48], .pBytes [48], .pBytes [48],
    .pBytes [48], .pInt 10, .pBytes [48]]
  toVals := fun fs => .ok fs
  conv := fun g => do
    let st ← pyEnum vals01 (g 1)
    let cds ← pyEnum vals01 (g 2)
    let cdo ← pyEnum vals01 (g 3)
    let gap ← pyEnum vals01 (g 4)
    let fsl ← pyEnum vals01 (g 5)
    let len ← pyInt (g 6)
    let fas ← pyEnum vals01 (g 7)
    .ok [st, cds, cdo, gap, fsl, len, fas]

/-- `Code128` (`config.py` lines 1529-1651); the separator-character
group is `ASCII_CHAR` (`.` or an escape pair) and the default separator
is the *bytes* `b','`. -/
def Code128 : KFamily where
  clsName := "Code128"
  kCode := bstr "K474"
  pattern := rcat [.lit (bstr "<K474,"), .opt (.grp 1 (clsR 48 49)), .lit [44],
    .opt (.grp 2 (clsR 48 49)), .lit [44],
    .opt (.grp 3 (.reps isDigitB 1 (some 2))), .lit [44],
    .opt (.grp 4 (clsR 48 50)), .lit [44], .opt (.grp 5 (clsR 48 49)), .lit [44],
    .opt (.grp 6 (clsR 48 49)), .lit [44],
    .opt (.grp 7 (.alt (.cls isDotB) escCls)), .lit [44],
    .opt (.grp 8 (clsR 48 49)), .lit [44], .opt (.grp 9 (clsR 48 49)),
    .lit [62], .eos]
  nGroups := 9
  defaults := [.pBytes [48], .pBytes [48], .pInt 10, .pBytes [48], .pBytes [48],
    .pBytes [48], .pBytes [44], .pBytes [48], .pBytes [48]]
  toVals := fun fs => .ok fs
  conv := fun g => do
    let st ← pyEnum vals01 (g 1)
    let fslst ← pyEnum vals01 (g 2)
    let len ← pyInt (g 3)
    let ean ← pyEnum vals02 (g 4)
    let fmt ← pyEnum vals01 (g 5)
    let sepst ← pyEnum vals01 (g 6)
    let sep ← pyRaw (g 7)
    let br ← pyEnum vals01 (g 8)
    let pad ← pyEnum vals01 (g 9)
    .ok [st, fslst, len, ean, fmt, sepst, sep, br, pad]

/-- `UPC_EAN` (`config.py` lines 1715-1792): the wire layout reserves an
always-empty slot (the literal `,,` in the pattern) which
`to_config_string` fills with `None`; the default separator is the
*str* `','`. -/
def UPC_EAN : KFamily where
  clsName := "UPC_EAN"
  kCode := bstr "K473"
  pattern := rcat [.lit (bstr "<K473,"), .opt (.grp 1 (clsR 48 49)), .lit [44],
    .opt (.grp 2 (clsR 48 49)), .lit [44], .opt (.grp 3 (clsR 48 50)), .lit [44],
    .opt (.grp 4 (clsR 48 49)), .lit [44], .opt (.grp 5 (.cls isDotB)),
    .lit [44, 44], .opt (.grp 6 (clsR 48 49)), .lit [44],
    .opt (.grp 7 (clsR 48 49)), .lit [62], .eos]
  nGroups := 7
  defaults := [.pBytes [48], .pBytes [48], .pBytes [48], .pBytes [48],
    .pStr ",", .pBytes [48], .pInt 0]
  toVals := fun fs =>
    match fs with
    | [upc, ean, suppl, sepst, sep, upce, undoc] =>
      .ok [upc, ean, suppl, sepst, sep, .pNone, upce, undoc]
    | _ => .error .typeError
  conv := fun g => do
    let upc ← pyEnum vals01 (g 1)
    let ean ← pyEnum vals01 (g 2)
    let suppl ← pyEnum vals02 (g 3)
    let sepst ← pyEnum vals01 (g 4)
    let sep ← pyRaw (g 5)
    let upce ← pyEnum vals01 (g 6)
    let undoc ← pyInt (g 7)
    .ok [upc, ean, suppl, sepst, sep, upce, undoc]

/-- `Code93` (`config.py` lines 1803-1855). -/
def Code93 : KFamily where
  clsName := "Code93"
  kCode := bstr "K475"
  pattern := rcat [.lit (bstr "<K475,"), .opt (.grp 1 (clsR 48 49)), .lit [44],
    .opt (.grp 2 (clsR 48 49)), .lit [44],
    .opt (.grp 3 (.reps isDigitB 1 (some 2))), .lit [62], .eos]
  nGroups := 3
  defaults := [.pBytes [48], .pBytes [48], .pInt 10]
  toVals := fun fs => .ok fs
  conv := fun g => do
    let st ← pyEnum vals01 (g 1)
    let fslst ← pyEnum vals01 (g 2)
    let fsl ← pyInt (g 3)
    .ok [st, fslst, fsl]

/-- `NarrowMarginsAndSymbologyID` (`config.py` lines 1887-1930). -/
def NarrowMarginsAndSymbologyID : KFamily where
  clsName := "NarrowMarginsAndSymbologyID"
  kCode := bstr "K450"
  pattern := rcat [.lit (bstr "<K450,"), .opt (.grp 1 (clsR 48 49)), .lit [44],
    .opt (.grp 2 (clsR 48 49)), .lit [62], .eos]
  nGroups := 2
  defaults := [.pBytes [48], .pBytes [48]]
  toVals := fun fs => .ok fs
  conv := fun g => do
    let nm ← pyEnum vals01 (g 1)
    let sid ← pyEnum vals01 (g 2)
    .ok [nm, sid]

/-- `BackgroundColor` (`config.py` lines 1941-1977). -/
def BackgroundColor : KFamily where
  clsName := "BackgroundColor"
  kCode := bstr "K451"
  pattern := rcat [.lit (bstr "<K451,"), .opt (.grp 1 (clsR 48 49)),
    .lit [62], .eos]
  nGroups := 1
  defaults := [.pBytes [48]]
  toVals := fun fs => .ok fs
  conv := fun g => do
    let c ← pyEnum vals01 (g 1)
    .ok [c]

/-- `SymbolRatioMode` (`config.py` lines 1989-2042). -/
def SymbolRatioMode : KFamily where
  clsName := "SymbolRatioMode"
  kCode := bstr "K452"
  pattern := rcat [.lit (bstr "<K452,"), .opt (.grp 1 (clsR 48 50)), .lit [44],
    .opt (.grp 2 (clsR 48 50)), .lit [44], .opt (.grp 3 (clsR 48 50)), .lit [44],
    .opt (.grp 4 (clsR 48 50)), .lit [62], .eos]
  nGroups := 4
  defaults := [.pBytes [49], .pBytes [49], .pBytes [49], .pBytes [49]]
  toVals := fun fs => .ok fs
  conv := fun g => do
    let c39 ← pyEnum vals02 (g 1)
    let cb ← pyEnum vals02 (g 2)
    let il ← pyEnum vals02 (g 3)
    let c93 ← pyEnum vals02 (g 4)
    .ok [c39, cb, il, c93]

/-- `REGISTRY` (`config.py` lines 2051-2084) in source order; the
commented-out placeholder classes (`Interleaved2Of5`, `Codabar`,
`Pharmacode`) have no grammar and are not registered. -/
def REGISTRY : List KFamily :=
  [HostPortConnection, HostProtocol, HostRS422Status, RS232AuxiliaryPort,
   Preamble, Postamble, LRC, InterCharacterDelay, Multisymbol, Trigger,
   ExternalTrigger, SerialTrigger, StartTriggerCharacter, StopTriggerCharacter,
   EndReadCycle, DecodesBeforeOutput, ScanSpeed, ScannerSetup, SymbolDetect,
   MaximumElement, ScanWidthEnhance, LaserSetup, Code39, Code128, UPC_EAN,
   Code93, NarrowMarginsAndSymbologyID, BackgroundColor, SymbolRatioMode]

/-! ## The configuration aggregate (`MicroscanConfiguration`) -/

/-- ASCII lowercase test (regex class `[a-z]`). -/
def isLowerA (c : Char) : Bool := 97 ≤ c.toNat && c.toNat ≤ 122

/-- ASCII uppercase test (regex class `[A-Z]`). -/
def isUpperA (c : Char) : Bool := 65 ≤ c.toNat && c.toNat ≤ 90

/-- ASCII `str.lower()`. -/
def toLowerA (c : Char) : Char :=
  if 65 ≤ c.toNat && c.toNat ≤ 90 then Char.ofNat (c.toNat + 32) else c

/-- The `re.sub(r'([a-z])([A-Z])', r'\1_\2', s)` scan: left-to-right,
non-overlapping, resuming after each replaced pair. -/
def camelScan : List Char → List Char
  | [] => []
  | [c] => [c]
  | a :: b :: rest =>
    if isLowerA a && isUpperA b then a :: '_' :: b :: camelScan rest
    else a :: camelScan (b :: rest)

/-- `MicroscanConfiguration._clsname_to_propname` (`config.py` lines
2152-2158): camelCase to under_score, then lowercase. -/
def clsname_to_propname (s : String) : String :=
  String.mk ((camelScan s.toList).map toLowerA)

/-- The attribute dictionary of a `MicroscanConfiguration` object:
property name to the setting instance (its field list) stored there. -/
def MSConfig := String → Option (List PyVal)

/-- `setattr(instance, key, v)`. -/
def setattrC (c : MSConfig) (key : String) (v : List PyVal) : MSConfig :=
  fun x => if x = key then some v else c x

/-- An object with no configuration attributes set. -/
def emptyInstanceC : MSConfig := fun _ => none

/-- `MicroscanConfiguration.load_defaults` (`config.py` lines
2104-2112): for every registry entry, overwrite the corresponding
property with a default-constructed instance. -/
def load_defaults (c : MSConfig) : MSConfig :=
  REGISTRY.foldl (fun acc f => setattrC acc (clsname_to_propname f.clsName) f.defaults) c

/-- `MicroscanConfiguration()` — the constructor calls `load_defaults`. -/
def MicroscanConfiguration_init : MSConfig := load_defaults emptyInstanceC

/-- `_K_CODE_PATTERN = re.compile(b'<(K\d+)(.*)>')` (`config.py` line 2099). -/
def K_CODE_PATTERN : RE :=
  rcat [.lit [60], .grp 1 (.seq (.lit [75]) (.reps isDigitB 1 none)),
    .grp 2 (.reps isDotB 0 none), .lit [62]]

/-- `REGISTRY[k_code]` lookup. -/
def registryFind (k : List Nat) : Option KFamily :=
  REGISTRY.find? (fun f => f.kCode == k)

/-- One iteration of the `from_config_strings` loop (`config.py` lines
2132-2148).  State is `(attributes, log)` where `log` records the
K-codes passed to `logger.info` ("Cannot find serializer class ...").
A line that does not match `_K_CODE_PATTERN` is skipped silently
(the `AttributeError` of `match.group(1)` is caught and the loop
`continue`s); an unregistered K-code raises `KeyError` inside the
`try`, which is caught and logged; `from_config_string` runs inside the
same `try`, so only a `KeyError` from it would be caught — any other
decode error propagates and aborts the batch. -/
def processLine (acc : MSConfig × List (List Nat)) (line : List Nat) :
    Except PyErr (MSConfig × List (List Nat)) :=
  match reMatch K_CODE_PATTERN line with
  | none => .ok acc
  | some caps =>
    match capGet caps 1 with
    | none => .ok acc
    | some k =>
      match registryFind k with
      | none => .ok (acc.1, acc.2 ++ [k])
      | some f =>
        match famFromConfigString f line with
        | .error .keyError => .ok (acc.1, acc.2 ++ [k])
        | .error e => .error e
        | .ok inst => .ok (setattrC acc.1 (clsname_to_propname f.clsName) inst, acc.2)

/-- `MicroscanConfiguration.from_config_strings` (`config.py` lines
2114-2150): the constructor already loads defaults; `defaults=True`
merely loads them again before the lines are folded in. -/
def from_config_strings (lines : List (List Nat)) (defaults : Bool) :
    Except PyErr (MSConfig × List (List Nat)) :=
  let inst := MicroscanConfiguration_init
  let inst := if defaults then load_defaults inst else inst
  lines.foldlM processLine (inst, [])

/-- `MicroscanConfiguration.to_config_string` (`config.py` lines
2160-2172): `getattr` every registry slot (missing slots become `None`
and are filtered out), serialize each present instance, join with the
caller's separator. -/
def MicroscanConfiguration_to_config_string (c : MSConfig) (sep : List Nat) :
    Except PyErr (List Nat) := do
  let props := REGISTRY.map
    (fun f => (c (clsname_to_propname f.clsName)).map (fun fields => (f, fields)))
  let frags ← (props.filterMap id).mapM (fun p => famToConfigString p.1 p.2)
  .ok (List.intercalate sep frags)

/-- The 29 default configuration fragments in registry order: the
serialization of each registered family's `__init__` defaults. -/
def DEFAULT_CONFIG_FRAGMENTS : List (List Nat) :=
  [bstr "<K100,4,0,0,0>", bstr "<K140,0>", bstr "<K102,0>",
   bstr "<K101,0,4,0,0,0,0,1/>", bstr "<K141,0,>", bstr "<K142,0,>",
   bstr "<K145,0>", bstr "<K144,0>", bstr "<K222,1,,>",
   bstr "<K200,0,244>", bstr "<K202,1>", bstr "<K201,^>", bstr "<K229,>",
   bstr "<K230,>", bstr "<K220,0,100>", bstr "<K221,1,0>",
   bstr "<K500,350>", bstr "<K504,350,2,70,245>", bstr "<K505,0,14>",
   bstr "<K502,0>", bstr "<K511,0>", bstr "<K700,1,1,10,95,2>",
   bstr "<K470,1,0,0,0,0,10,0>", bstr "<K474,0,0,10,0,0,0,,,0,0>",
   bstr "<K473,0,0,0,0,,,,0,0>", bstr "<K475,0,0,10>", bstr "<K450,0,0>",
   bstr "<K451,0>", bstr "<K452,1,1,1,1>"]

/-- The default wire blob: the default fragments joined with the default
empty separator. -/
def DEFAULT_CONFIG_BLOB : List Nat :=
  bstr "<K100,4,0,0,0><K140,0><K102,0><K101,0,4,0,0,0,0,1/><K141,0,><K142,0,><K145,0><K144,0><K222,1,,><K200,0,244><K202,1><K201,^><K229,><K230,><K220,0,100><K221,1,0><K500,350><K504,350,2,70,245><K505,0,14><K502,0><K511,0><K700,1,1,10,95,2><K470,1,0,0,0,0,10,0><K474,0,0,10,0,0,0,,,0,0><K473,0,0,0,0,,,,0,0><K475,0,0,10><K450,0,0><K451,0><K452,1,1,1,1>"

/-! ## The device session (`driver.py`) -/

/-- `bytes.split(b'\r\n')`: left-to-right, non-overlapping. -/
def splitCRLF : List Nat → List (List Nat)
  | [] => [[]]
  | 13 :: 10 :: rest => [] :: splitCRLF rest
  | c :: rest =>
    match splitCRLF rest with
    | [] => [[c]]
    | h :: t => (c :: h) :: t

/-- The buffered branch of `MicroscanDriver.read_barcode` (`driver.py`
lines 197-210), as a function of the drained buffer contents: split on
the CR-LF postamble; if `len(lines) > 2 and lines[-1] == b''` return
`lines[-2]`, otherwise fall back to a blocking `readline()` (modelled
as `none`, the buffer having already been consumed by `read_all()`). -/
def read_barcode_buffered (buf : List Nat) : Option (List Nat) :=
  let lines := splitCRLF buf
  if 2 < lines.length ∧ lines.getLast? = some [] then
    lines.get? (lines.length - 2)
  else
    none

/-- `MicroscanDriver.write_config` (`driver.py` lines 155-168) as a
function of the cached `_config`: result is the sequence of
`self.write(...)` byte strings issued, paired with the exception raised,
if any.  With no cached configuration the guard raises `TypeError`
(the spec's NoConfigurationLoaded) before anything is written; with a
cached one, `<I>`, the serialized blob and `<H>` are written in order
(the blob argument is evaluated after `<I>` is written, so a
serialization failure leaves just `<I>` on the wire). -/
def write_config (cfg : Option MSConfig) : List (List Nat) × Option PyErr :=
  match cfg with
  | none => ([], some .typeError)
  | some c =>
    match MicroscanConfiguration_to_config_string c [] with
    | .error e => ([bstr "<I>"], some e)
    | .ok blob => ([bstr "<I>", blob, bstr "<H>"], none)

/-! ## Documented valid domains

Per-family field domains from the device documentation as mirrored by
the classes' `__init__` defaults, `is_valid` range checks and wire
grammars.  Character-valued fields are constrained to *bytes* here
(single bytes below 256 and other than `\n`) — the wire-normalized
representation that `from_config_string` produces. -/

/-- A byte that can sit inside a character-run slot: an actual byte
value that the `.` class accepts. -/
def byteOk (c : Nat) : Bool := c < 256 && c != 10

/-- An enum-typed field: a member value of the field's enum. -/
def enumDomB (vals : List (List Nat)) : PyVal → Bool
  | .pBytes b => vals.contains b
  | _ => false

/-- A bounded integer field. -/
def intDomB (lo hi : Int) : PyVal → Bool
  | .pInt n => decide (lo ≤ n) && decide (n ≤ hi)
  | _ => false

/-- An integer field with only a documented lower bound
(`Trigger.trigger_filter_duration`). -/
def intGeB (lo : Int) : PyVal → Bool
  | .pInt n => decide (lo ≤ n)
  | _ => false

/-- A bounded-length character-run field, as bytes. -/
def charRunDomB (lo hi : Nat) : PyVal → Bool
  | .pBytes b => decide (lo ≤ b.length) && decide (b.length ≤ hi) && b.all byteOk
  | _ => false

/-- An optional character run: `None` or bytes. -/
def optCharRunDomB (lo hi : Nat) (v : PyVal) : Bool :=
  match v with
  | .pNone => true
  | v => charRunDomB lo hi v

/-- `StartTriggerCharacter`/`StopTriggerCharacter`: `None` or exactly
two hex-digit bytes. -/
def hexPairDomB : PyVal → Bool
  | .pNone => true
  | .pBytes [a, b] => isHexB a && isHexB b
  | _ => false

/-- A baud-rate field: one of the nine documented bits-per-second values. -/
def baudDomB : PyVal → Bool
  | .pInt n => (BAUD_RATES.find? (fun e => e.2 == n)).isSome
  | _ => false

/-- Pointwise conformance of a field list to a slot-domain list. -/
def fieldsOk (ps : List (PyVal → Bool)) (fs : List PyVal) : Bool :=
  ps.length == fs.length && (List.zip ps fs).all (fun z => z.1 z.2)

/-- The slot domains of each registered family, keyed by class name. -/
def famDomain : String → List (PyVal → Bool)
  | "HostPortConnection" =>
    [baudDomB, enumDomB vals02, enumDomB vals01, enumDomB vals01]
  | "HostProtocol" => [enumDomB vals07]
  | "HostRS422Status" => [enumDomB vals01]
  | "RS232AuxiliaryPort" =>
    [enumDomB vals05, baudDomB, enumDomB vals02, enumDomB vals01,
     enumDomB vals01, enumDomB vals01, charRunDomB 1 2]
  | "Preamble" => [enumDomB vals01, optCharRunDomB 1 4]
  | "Postamble" => [enumDomB vals01, optCharRunDomB 1 4]
  | "LRC" => [enumDomB vals01]
  | "InterCharacterDelay" => [intDomB 0 255]
  | "Multisymbol" => [intDomB 1 5, charRunDomB 1 1]
  | "Trigger" => [enumDomB vals05, intGeB 0]
  | "ExternalTrigger" => [enumDomB vals01]
  | "SerialTrigger" => [charRunDomB 1 1]
  | "StartTriggerCharacter" => [hexPairDomB]
  | "StopTriggerCharacter" => [hexPairDomB]
  | "EndReadCycle" => [enumDomB vals02, intDomB 0 65535]
  | "DecodesBeforeOutput" => [intDomB 1 255, enumDomB vals01]
  | "ScanSpeed" => [intDomB 30 100]
  | "ScannerSetup" =>
    [intDomB 40 255, enumDomB vals02, intDomB 40 250, intDomB 60 255]
  | "SymbolDetect" => [enumDomB vals01, intDomB 0 255]
  | "MaximumElement" => [intDomB 0 65535]
  | "ScanWidthEnhance" => [enumDomB vals01]
  | "LaserSetup" =>
    [enumDomB vals01, enumDomB vals01, intDomB 10 80, intDomB 20 95,
     enumDomB vals02]
  | "Code39" =>
    [enumDomB vals01, enumDomB vals01, enumDomB vals01, enumDomB vals01,
     enumDomB vals01, intDomB 1 64, enumDomB vals01]
  | "Code128" =>
    [enumDomB vals01, enumDomB vals01, intDomB 1 64, enumDomB vals02,
     enumDomB vals01, enumDomB vals01, charRunDomB 1 1, enumDomB vals01,
     enumDomB vals01]
  | "UPC_EAN" =>
    [enumDomB vals01, enumDomB vals01, enumDomB vals02, enumDomB vals01,
     charRunDomB 1 1, enumDomB vals01, intDomB 0 1]
  | "Code93" => [enumDomB vals01, enumDomB vals01, intDomB 1 64]
  | "NarrowMarginsAndSymbologyID" => [enumDomB vals01, enumDomB vals01]
  | "BackgroundColor" => [enumDomB vals01]
  | "SymbolRatioMode" =>
    [enumDomB vals02, enumDomB vals02, enumDomB vals02, enumDomB vals02]
  | _ => []

/-- A field list lies within a family's documented valid domain. -/
def validDomainB (name : String) (fs : List PyVal) : Bool :=
  fieldsOk (famDomain name) fs

/-! ### Destructuring lemmas for the domain predicates -/

theorem fieldsOk_one {p1 : PyVal → Bool} {fs : List PyVal}
    (h : fieldsOk [p1] fs = true) :
    ∃ a, fs = [a] ∧ p1 a = true := by
  match fs with
  | [a] =>
    refine ⟨a, rfl, ?_⟩
    simpa [fieldsOk] using h
  | [] => simp [fieldsOk] at h
  | _ :: _ :: _ => simp [fieldsOk] at h

theorem fieldsOk_two {p1 p2 : PyVal → Bool} {fs : List PyVal}
    (h : fieldsOk [p1, p2] fs = true) :
    ∃ a b, fs = [a, b] ∧ p1 a = true ∧ p2 b = true := by
  match fs with
  | [a, b] =>
    refine ⟨a, b, rfl, ?_⟩
    simpa [fieldsOk] using h
  | [] => simp [fieldsOk] at h
  | [_] => simp [fieldsOk] at h
  | _ :: _ :: _ :: _ => simp [fieldsOk] at h

theorem fieldsOk_three {p1 p2 p3 : PyVal → Bool} {fs : List PyVal}
    (h : fieldsOk [p1, p2, p3] fs = true) :
    ∃ a b c, fs = [a, b, c] ∧ p1 a = true ∧ p2 b = true ∧ p3 c = true := by
  match fs with
  | [a, b, c] =>
    refine ⟨a, b, c, rfl, ?_⟩
    simpa [fieldsOk, and_assoc] using h
  | [] => simp [fieldsOk] at h
  | [_] => simp [fieldsOk] at h
  | [_, _] => simp [fieldsOk] at h
  | _ :: _ :: _ :: _ :: _ => simp [fieldsOk] at h

theorem fieldsOk_four {p1 p2 p3 p4 : PyVal → Bool} {fs : List PyVal}
    (h : fieldsOk [p1, p2, p3, p4] fs = true) :
    ∃ a b c d, fs = [a, b, c, d] ∧ p1 a = true ∧ p2 b = true ∧ p3 c = true ∧
      p4 d = true := by
  match fs with
  | [a, b, c, d] =>
    refine ⟨a, b, c, d, rfl, ?_⟩
    simpa [fieldsOk, and_assoc] using h
  | [] => simp [fieldsOk] at h
  | [_] => simp [fieldsOk] at h
  | [_, _] => simp [fieldsOk] at h
  | [_, _, _] => simp [fieldsOk] at h
  | _ :: _ :: _ :: _ :: _ :: _ => simp [fieldsOk] at h

theorem fieldsOk_five {p1 p2 p3 p4 p5 : PyVal → Bool} {fs : List PyVal}
    (h : fieldsOk [p1, p2, p3, p4, p5] fs = true) :
    ∃ a b c d e, fs = [a, b, c, d, e] ∧ p1 a = true ∧ p2 b = true ∧
      p3 c = true ∧ p4 d = true ∧ p5 e = true := by
  match fs with
  | [a, b, c, d, e] =>
    refine ⟨a, b, c, d, e, rfl, ?_⟩
    simpa [fieldsOk, and_assoc] using h
  | [] => simp [fieldsOk] at h
  | [_] => simp [fieldsOk] at h
  | [_, _] => simp [fieldsOk] at h
  | [_, _, _] => simp [fieldsOk] at h
  | [_, _, _, _] => simp [fieldsOk] at h
  | _ :: _ :: _ :: _ :: _ :: _ :: _ => simp [fieldsOk] at h

theorem fieldsOk_seven {p1 p2 p3 p4 p5 p6 p7 : PyVal → Bool} {fs : List PyVal}
    (h : fieldsOk [p1, p2, p3, p4, p5, p6, p7] fs = true) :
    ∃ a b c d e f g, fs = [a, b, c, d, e, f, g] ∧ p1 a = true ∧ p2 b = true ∧
      p3 c = true ∧ p4 d = true ∧ p5 e = true ∧ p6 f = true ∧ p7 g = true := by
  match fs with
  | [a, b, c, d, e, f, g] =>
    refine ⟨a, b, c, d, e, f, g, rfl, ?_⟩
    simpa [fieldsOk, and_assoc] using h
  | [] => simp [fieldsOk] at h
  | [_] => simp [fieldsOk] at h
  | [_, _] => simp [fieldsOk] at h
  | [_, _, _] => simp [fieldsOk] at h
  | [_, _, _, _] => simp [fieldsOk] at h
  | [_, _, _, _, _] => simp [fieldsOk] at h
  | [_, _, _, _, _, _] => simp [fieldsOk] at h
  | _ :: _ :: _ :: _ :: _ :: _ :: _ :: _ :: _ => simp [fieldsOk] at h

theorem fieldsOk_nine {p1 p2 p3 p4 p5 p6 p7 p8 p9 : PyVal → Bool} {fs : List PyVal}
    (h : fieldsOk [p1, p2, p3, p4, p5, p6, p7, p8, p9] fs = true) :
    ∃ a b c d e f g a8 a9, fs = [a, b, c, d, e, f, g, a8, a9] ∧ p1 a = true ∧
      p2 b = true ∧ p3 c = true ∧ p4 d = true ∧ p5 e = true ∧ p6 f = true ∧
      p7 g = true ∧ p8 a8 = true ∧ p9 a9 = true := by
  match fs with
  | [a, b, c, d, e, f, g, a8, a9] =>
    refine ⟨a, b, c, d, e, f, g, a8, a9, rfl, ?_⟩
    simpa [fieldsOk, and_assoc] using h
  | [] => simp [fieldsOk] at h
  | [_] => simp [fieldsOk] at h
  | [_, _] => simp [fieldsOk] at h
  | [_, _, _] => simp [fieldsOk] at h
  | [_, _, _, _] => simp [fieldsOk] at h
  | [_, _, _, _, _] => simp [fieldsOk] at h
  | [_, _, _, _, _, _] => simp [fieldsOk] at h
  | [_, _, _, _, _, _, _] => simp [fieldsOk] at h
  | [_, _, _, _, _, _, _, _] => simp [fieldsOk] at h
  | _ :: _ :: _ :: _ :: _ :: _ :: _ :: _ :: _ :: _ :: _ => simp [fieldsOk] at h

theorem enumDom_elim {vals : List (List Nat)} {v : PyVal}
    (h : enumDomB vals v = true) :
    ∃ b, v = .pBytes b ∧ vals.contains b = true := by
  cases v with
  | pBytes b => exact ⟨b, rfl, by simpa [enumDomB] using h⟩
  | pStr s => simp [enumDomB] at h
  | pInt n => simp [enumDomB] at h
  | pNone => simp [enumDomB] at h

theorem intDom_elim {lo hi : Int} {v : PyVal} (h : intDomB lo hi v = true) :
    ∃ n : Int, v = .pInt n ∧ lo ≤ n ∧ n ≤ hi := by
  cases v with
  | pInt n =>
    refine ⟨n, rfl, ?_⟩
    simpa [intDomB, Bool.and_eq_true, decide_eq_true_eq] using h
  | pBytes b => simp [intDomB] at h
  | pStr s => simp [intDomB] at h
  | pNone => simp [intDomB] at h

theorem intGe_elim {lo : Int} {v : PyVal} (h : intGeB lo v = true) :
    ∃ n : Int, v = .pInt n ∧ lo ≤ n := by
  cases v with
  | pInt n =>
    refine ⟨n, rfl, ?_⟩
    simpa [intGeB, decide_eq_true_eq] using h
  | pBytes b => simp [intGeB] at h
  | pStr s => simp [intGeB] at h
  | pNone => simp [intGeB] at h

theorem charRun_elim {lo hi : Nat} {v : PyVal} (h : charRunDomB lo hi v = true) :
    ∃ b, v = .pBytes b ∧ lo ≤ b.length ∧ b.length ≤ hi ∧ b.all byteOk = true := by
  cases v with
  | pBytes b =>
    refine ⟨b, rfl, ?_⟩
    simpa [charRunDomB, Bool.and_eq_true, decide_eq_true_eq, and_assoc] using h
  | pStr s => simp [charRunDomB] at h
  | pInt n => simp [charRunDomB] at h
  | pNone => simp [charRunDomB] at h

theorem optCharRun_elim {lo hi : Nat} {v : PyVal}
    (h : optCharRunDomB lo hi v = true) :
    v = .pNone ∨ charRunDomB lo hi v = true := by
  cases v with
  | pNone => exact Or.inl rfl
  | pBytes b => exact Or.inr (by simpa [optCharRunDomB] using h)
  | pStr s => exact Or.inr (by simpa [optCharRunDomB] using h)
  | pInt n => exact Or.inr (by simpa [optCharRunDomB] using h)

theorem hexPair_elim {v : PyVal} (h : hexPairDomB v = true) :
    v = .pNone ∨ ∃ a b, v = .pBytes [a, b] ∧ isHexB a = true ∧ isHexB b = true := by
  cases v with
  | pNone => exact Or.inl rfl
  | pBytes b =>
    match b with
    | [a, c] =>
      refine Or.inr ⟨a, c, rfl, ?_⟩
      simpa [hexPairDomB, Bool.and_eq_true] using h
    | [] => simp [hexPairDomB] at h
    | [_] => simp [hexPairDomB] at h
    | _ :: _ :: _ :: _ => simp [hexPairDomB] at h
  | pStr s => simp [hexPairDomB] at h
  | pInt n => simp [hexPairDomB] at h

theorem baud_elim {v : PyVal} (h : baudDomB v = true) :
    v = .pInt 600 ∨ v = .pInt 1200 ∨ v = .pInt 2400 ∨ v = .pInt 4800 ∨
    v = .pInt 9600 ∨ v = .pInt 19200 ∨ v = .pInt 38400 ∨ v = .pInt 57600 ∨
    v = .pInt 115200 := by
  cases v with
  | pInt n =>
    have hn : n = 600 ∨ n = 1200 ∨ n = 2400 ∨ n = 4800 ∨ n = 9600 ∨
        n = 19200 ∨ n = 38400 ∨ n = 57600 ∨ n = 115200 := by
      by_contra hc
      push_neg at hc
      obtain ⟨h1, h2, h3, h4, h5, h6, h7, h8, h9⟩ := hc
      have e1 : ((600 : Int) == n) = false := by simp; omega
      have e2 : ((1200 : Int) == n) = false := by simp; omega
      have e3 : ((2400 : Int) == n) = false := by simp; omega
      have e4 : ((4800 : Int) == n) = false := by simp; omega
      have e5 : ((9600 : Int) == n) = false := by simp; omega
      have e6 : ((19200 : Int) == n) = false := by simp; omega
      have e7 : ((38400 : Int) == n) = false := by simp; omega
      have e8 : ((57600 : Int) == n) = false := by simp; omega
      have e9 : ((115200 : Int) == n) = false := by simp; omega
      simp [baudDomB, BAUD_RATES, List.find?, e1, e2, e3, e4, e5, e6, e7, e8,
        e9] at h
    rcases hn with h' | h' | h' | h' | h' | h' | h' | h' | h' <;> subst h' <;> simp
  | pBytes b => simp [baudDomB] at h
  | pStr s => simp [baudDomB] at h
  | pNone => simp [baudDomB] at h

theorem vals01_elim {bb : List Nat} (h : vals01.contains bb = true) :
    ∃ b, bb = [b] ∧ 48 ≤ b ∧ b ≤ 49 := by
  have : bb = [48] ∨ bb = [49] := by simpa [vals01] using h
  rcases this with h' | h' <;> subst h'
  · exact ⟨48, rfl, by omega, by omega⟩
  · exact ⟨49, rfl, by omega, by omega⟩

theorem vals02_elim {bb : List Nat} (h : vals02.contains bb = true) :
    ∃ b, bb = [b] ∧ 48 ≤ b ∧ b ≤ 50 := by
  have : bb = [48] ∨ bb = [49] ∨ bb = [50] := by
    simpa [vals02] using h
  rcases this with h' | h' | h' <;> subst h' <;>
    exact ⟨_, rfl, by omega, by omega⟩

theorem vals05_elim {bb : List Nat} (h : vals05.contains bb = true) :
    ∃ b, bb = [b] ∧ 48 ≤ b ∧ b ≤ 53 := by
  have : bb = [48] ∨ bb = [49] ∨ bb = [50] ∨ bb = [51] ∨ bb = [52] ∨
      bb = [53] := by
    simpa [vals05] using h
  rcases this with h' | h' | h' | h' | h' | h' <;> subst h' <;>
    exact ⟨_, rfl, by omega, by omega⟩

theorem vals07_elim {bb : List Nat} (h : vals07.contains bb = true) :
    ∃ b, bb = [b] ∧ 48 ≤ b ∧ b ≤ 55 := by
  have : bb = [48] ∨ bb = [49] ∨ bb = [50] ∨ bb = [51] ∨ bb = [52] ∨
      bb = [53] ∨ bb = [54] ∨ bb = [55] := by
    simpa [vals07] using h
  rcases this with h' | h' | h' | h' | h' | h' | h' | h' <;> subst h' <;>
    exact ⟨_, rfl, by omega, by omega⟩

theorem pyEnum_ok {vals : List (List Nat)} {b : List Nat}
    (h : vals.contains b = true) : pyEnum vals (some b) = .ok (.pBytes b) := by
  have hm : b ∈ vals := by simpa using h
  simp [pyEnum, hm]

theorem all_byteOk_isDot {b : List Nat} (h : b.all byteOk = true) :
    b.all isDotB = true := by
  rw [List.all_eq_true] at h ⊢
  intro x hx
  have := h x hx
  simp only [byteOk, Bool.and_eq_true] at this
  simpa [isDotB] using this.2

theorem run_lit_k {l t : List Nat} {caps : Caps} {k : Caps → List Nat → Option Caps}
    {r : Caps} (hk : k caps t = some r) :
    mrun (.lit l) caps (l ++ t) k = some r := by
  rw [run_lit]
  exact hk

theorem run_grp_cls_k {p : Nat → Bool} {c : Nat} {i : Nat} {t : List Nat}
    {caps : Caps} {k : Caps → List Nat → Option Caps} {r : Caps}
    (hpc : p c = true) (hk : k ((i, [c]) :: caps) t = some r) :
    mrun (.grp i (.cls p)) caps (c :: t) k = some r := by
  rw [run_grp_cls hpc]
  exact hk

theorem run_opt_none_k {a : RE} {caps : Caps} {s : List Nat}
    {k : Caps → List Nat → Option Caps} {r : Caps}
    (hnone : mrun a caps s k = none) (hk : k caps s = some r) :
    mrun (.opt a) caps s k = some r := by
  rw [run_opt_none hnone]
  exact hk

/-! ### Sequencing forms of the matcher lemmas

Each pattern is a `rcat` chain `seq slot rest`; these wrappers step
through one slot and hand the remainder of the input to `rest`. -/

theorem run_seq_lit_k {l t : List Nat} {rest : RE} {caps : Caps}
    {k : Caps → List Nat → Option Caps} {r : Caps}
    (hk : mrun rest caps t k = some r) :
    mrun (.seq (.lit l) rest) caps (l ++ t) k = some r := by
  rw [run_seq, run_lit]
  exact hk

theorem run_seq_grp_cls_k {p : Nat → Bool} {c : Nat} {i : Nat} {t : List Nat}
    {rest : RE} {caps : Caps} {k : Caps → List Nat → Option Caps} {r : Caps}
    (hpc : p c = true) (hk : mrun rest ((i, [c]) :: caps) t k = some r) :
    mrun (.seq (.grp i (.cls p)) rest) caps (c :: t) k = some r := by
  rw [run_seq, run_grp_cls hpc]
  exact hk

theorem run_seq_opt_grp_cls {p : Nat → Bool} {c : Nat} {i : Nat} {t : List Nat}
    {rest : RE} {caps : Caps} {k : Caps → List Nat → Option Caps} {r : Caps}
    (hpc : p c = true) (hk : mrun rest ((i, [c]) :: caps) t k = some r) :
    mrun (.seq (.opt (.grp i (.cls p))) rest) caps (c :: t) k = some r := by
  rw [run_seq]
  exact run_opt_grp_cls hpc hk

theorem run_seq_opt_grp_reps_exact {p : Nat → Bool} {xs t : List Nat} {i lo : Nat}
    {hi : Option Nat} {rest : RE} {caps : Caps}
    {k : Caps → List Nat → Option Caps} {r : Caps}
    (hall : xs.all p = true) (hlo : lo ≤ xs.length)
    (hhi : ∀ h, hi = some h → xs.length ≤ h)
    (hhead : ∀ c, t.head? = some c → p c = false)
    (hk : mrun rest ((i, xs) :: caps) t k = some r) :
    mrun (.seq (.opt (.grp i (.reps p lo hi))) rest) caps (xs ++ t) k = some r := by
  rw [run_seq]
  exact run_opt_grp_reps_exact hall hlo hhi hhead hk

theorem run_seq_opt_grp_reps_tail {p : Nat → Bool} {xs tgt : List Nat} {i lo : Nat}
    {hi : Option Nat} {rest : RE} {caps : Caps}
    {k : Caps → List Nat → Option Caps} {r : Caps}
    (hall : xs.all p = true) (hlo : lo ≤ xs.length)
    (hhi : ∀ h, hi = some h → xs.length ≤ h)
    (hshort : ∀ c u, u.length < tgt.length → mrun rest c u k = none)
    (hk : mrun rest ((i, xs) :: caps) tgt k = some r) :
    mrun (.seq (.opt (.grp i (.reps p lo hi))) rest) caps (xs ++ tgt) k = some r := by
  rw [run_seq]
  exact run_opt_grp_reps_tail hall hlo hhi (fun c u hu => hshort c u hu) hk

theorem run_seq_opt_grp_alt_dot {c : Nat} {esc : RE} {i : Nat} {t : List Nat}
    {rest : RE} {caps : Caps} {k : Caps → List Nat → Option Caps} {r : Caps}
    (h10 : isDotB c = true) (hk : mrun rest ((i, [c]) :: caps) t k = some r) :
    mrun (.seq (.opt (.grp i (.alt (.cls isDotB) esc))) rest) caps (c :: t) k =
      some r := by
  rw [run_seq]
  exact run_opt_grp_alt_dot h10 hk

theorem run_seq_opt_skip {a : RE} {rest : RE} {caps : Caps} {s : List Nat}
    {k : Caps → List Nat → Option Caps} {r : Caps}
    (hnone : mrun a caps s (fun c1 s1 => mrun rest c1 s1 k) = none)
    (hk : mrun rest caps s k = some r) :
    mrun (.seq (.opt a) rest) caps s k = some r := by
  rw [run_seq]
  exact run_opt_none_k hnone hk

/-- The final-slot backstop: after the last optional group the remaining
pattern accepts only the single-byte tail `">"`, so every shorter
remainder fails. -/
theorem shortTail {rest : RE} {k : Caps → List Nat → Option Caps}
    (h0 : ∀ c, mrun rest c [] k = none) :
    ∀ (c : Caps) (u : List Nat), u.length < 1 → mrun rest c u k = none := by
  intro c u hu
  have : u = [] := List.eq_nil_of_length_eq_zero (by omega)
  subst this
  exact h0 c

/-- Bound-side condition `∀ h, some n = some h → len ≤ h` discharged
from an arithmetic fact. -/
theorem hiBound {n : Nat} {xs : List Nat} (h : xs.length ≤ n) :
    ∀ h', (some n : Option Nat) = some h' → xs.length ≤ h' := by
  intro h' hh
  injection hh with e
  omega

/-- `hi = none` never bounds. -/
theorem hiNone {xs : List Nat} :
    ∀ h', (none : Option Nat) = some h' → xs.length ≤ h' := by
  intro h' hh
  cases hh

/-- Round-trip driver: once the canonical wire string of an instance is
known to match the family pattern with captures `caps`, and the decode
conversions rebuild the fields, `decode(encode(fields)) = fields`. -/
theorem famRoundTrip_eq {f : KFamily} {fields values : List PyVal} {caps : Caps}
    (htv : f.toVals fields = .ok values)
    (hmatch : reMatch f.pattern (kstr f.kCode values) = some caps)
    (hconv : f.conv (fun i => capGet caps i) = .ok fields) :
    famRoundTrip f fields = .ok fields := by
  unfold famRoundTrip famToConfigString
  rw [htv]
  show KSetting_to_config_string f.kCode f.pattern values >>= famFromConfigString f = _
  unfold KSetting_to_config_string
  rw [hmatch]
  show famFromConfigString f (kstr f.kCode values) = _
  unfold famFromConfigString
  rw [hmatch]
  exact hconv

/-- `int()` of the decimal digits of a nonnegative Python int. -/
theorem pyInt_digits {n : Int} (h : 0 ≤ n) :
    pyInt (some (natDigits n.natAbs)) = .ok (.pInt n) := by
  simp only [pyInt, parsePyInt_natDigits]
  rw [Int.natAbs_of_nonneg h]

/-- `str()` of a nonnegative Python int is its digit run. -/
theorem intStr_nonneg {n : Int} (h : 0 ≤ n) : intStr n = natDigits n.natAbs := by
  simp [intStr, not_lt.mpr h]

theorem run_seq_lit1_k {c : Nat} {t : List Nat} {rest : RE} {caps : Caps}
    {k : Caps → List Nat → Option Caps} {r : Caps}
    (hk : mrun rest caps t k = some r) :
    mrun (.seq (.lit [c]) rest) caps (c :: t) k = some r := by
  have he : ([c] : List Nat) ++ t = c :: t := rfl
  rw [← he]
  exact run_seq_lit_k hk

theorem head_cons_not {p : Nat → Bool} {x : Nat} (hx : p x = false) (rest : List Nat) :
    ∀ c, (x :: rest).head? = some c → p c = false := by
  intro c hc
  simp only [List.head?, Option.some.injEq] at hc
  subst hc
  exact hx

/-! ## Per-family round-trip lemmas (for the C1 analysis) -/

theorem match_K102 {b : Nat} (hb1 : 48 ≤ b) (hb2 : b ≤ 49) :
    reMatch HostRS422Status.pattern (kstr HostRS422Status.kCode [.pBytes [b]]) =
      some [(1, [b])] := by
  show mrun HostRS422Status.pattern [] (bstr "<K102," ++ (b :: [62]))
    (fun caps _ => some caps) = some [(1, [b])]
  apply run_seq_lit_k
  apply run_seq_opt_grp_cls (by simp [hb1, hb2])
  rfl

theorem HostRS422Status_roundtrip (fs : List PyVal)
    (h : validDomainB "HostRS422Status" fs = true) :
    famRoundTrip HostRS422Status fs = .ok fs := by
  obtain ⟨v1, rfl, h1⟩ := fieldsOk_one (by simpa [validDomainB, famDomain] using h)
  obtain ⟨bb, rfl, hcont⟩ := enumDom_elim h1
  obtain ⟨b, rfl, hb1, hb2⟩ := vals01_elim hcont
  refine famRoundTrip_eq rfl (match_K102 hb1 hb2) ?_
  show pyEnum vals01 (some [b]) >>= (fun s => Except.ok [s]) = _
  rw [pyEnum_ok hcont]
  rfl

theorem match_K145 {b : Nat} (hb1 : 48 ≤ b) (hb2 : b ≤ 49) :
    reMatch LRC.pattern (kstr LRC.kCode [.pBytes [b]]) = some [(1, [b])] := by
  show mrun LRC.pattern [] (bstr "<K145," ++ (b :: [62]))
    (fun caps _ => some caps) = some [(1, [b])]
  apply run_seq_lit_k
  apply run_seq_opt_grp_cls (by simp [hb1, hb2])
  rfl

theorem LRC_roundtrip (fs : List PyVal)
    (h : validDomainB "LRC" fs = true) :
    famRoundTrip LRC fs = .ok fs := by
  obtain ⟨v1, rfl, h1⟩ := fieldsOk_one (by simpa [validDomainB, famDomain] using h)
  obtain ⟨bb, rfl, hcont⟩ := enumDom_elim h1
  obtain ⟨b, rfl, hb1, hb2⟩ := vals01_elim hcont
  refine famRoundTrip_eq rfl (match_K145 hb1 hb2) ?_
  show pyEnum vals01 (some [b]) >>= (fun s => Except.ok [s]) = _
  rw [pyEnum_ok hcont]
  rfl

theorem match_K202 {b : Nat} (hb1 : 48 ≤ b) (hb2 : b ≤ 49) :
    reMatch ExternalTrigger.pattern (kstr ExternalTrigger.kCode [.pBytes [b]]) =
      some [(1, [b])] := by
  show mrun ExternalTrigger.pattern [] (bstr "<K202," ++ (b :: [62]))
    (fun caps _ => some caps) = some [(1, [b])]
  apply run_seq_lit_k
  apply run_seq_opt_grp_cls (by simp [hb1, hb2])
  rfl

theorem ExternalTrigger_roundtrip (fs : List PyVal)
    (h : validDomainB "ExternalTrigger" fs = true) :
    famRoundTrip ExternalTrigger fs = .ok fs := by
  obtain ⟨v1, rfl, h1⟩ := fieldsOk_one (by simpa [validDomainB, famDomain] using h)
  obtain ⟨bb, rfl, hcont⟩ := enumDom_elim h1
  obtain ⟨b, rfl, hb1, hb2⟩ := vals01_elim hcont
  refine famRoundTrip_eq rfl (match_K202 hb1 hb2) ?_
  show pyEnum vals01 (some [b]) >>= (fun s => Except.ok [s]) = _
  rw [pyEnum_ok hcont]
  rfl

theorem match_K511 {b : Nat} (hb1 : 48 ≤ b) (hb2 : b ≤ 49) :
    reMatch ScanWidthEnhance.pattern (kstr ScanWidthEnhance.kCode [.pBytes [b]]) =
      some [(1, [b])] := by
  show mrun ScanWidthEnhance.pattern [] (bstr "<K511," ++ (b :: [62]))
    (fun caps _ => some caps) = some [(1, [b])]
  apply run_seq_lit_k
  apply run_seq_opt_grp_cls (by simp [hb1, hb2])
  rfl

theorem ScanWidthEnhance_roundtrip (fs : List PyVal)
    (h : validDomainB "ScanWidthEnhance" fs = true) :
    famRoundTrip ScanWidthEnhance fs = .ok fs := by
  obtain ⟨v1, rfl, h1⟩ := fieldsOk_one (by simpa [validDomainB, famDomain] using h)
  obtain ⟨bb, rfl, hcont⟩ := enumDom_elim h1
  obtain ⟨b, rfl, hb1, hb2⟩ := vals01_elim hcont
  refine famRoundTrip_eq rfl (match_K511 hb1 hb2) ?_
  show pyEnum vals01 (some [b]) >>= (fun s => Except.ok [s]) = _
  rw [pyEnum_ok hcont]
  rfl

theorem match_K451 {b : Nat} (hb1 : 48 ≤ b) (hb2 : b ≤ 49) :
    reMatch BackgroundColor.pattern (kstr BackgroundColor.kCode [.pBytes [b]]) =
      some [(1, [b])] := by
  show mrun BackgroundColor.pattern [] (bstr "<K451," ++ (b :: [62]))
    (fun caps _ => some caps) = some [(1, [b])]
  apply run_seq_lit_k
  apply run_seq_opt_grp_cls (by simp [hb1, hb2])
  rfl

theorem BackgroundColor_roundtrip (fs : List PyVal)
    (h : validDomainB "BackgroundColor" fs = true) :
    famRoundTrip BackgroundColor fs = .ok fs := by
  obtain ⟨v1, rfl, h1⟩ := fieldsOk_one (by simpa [validDomainB, famDomain] using h)
  obtain ⟨bb, rfl, hcont⟩ := enumDom_elim h1
  obtain ⟨b, rfl, hb1, hb2⟩ := vals01_elim hcont
  refine famRoundTrip_eq rfl (match_K451 hb1 hb2) ?_
  show pyEnum vals01 (some [b]) >>= (fun s => Except.ok [s]) = _
  rw [pyEnum_ok hcont]
  rfl

theorem match_Preamble_bytes {b : Nat} (hb1 : 48 ≤ b) (hb2 : b ≤ 49)
    {cs : List Nat} (hl1 : 1 ≤ cs.length) (hl4 : cs.length ≤ 4)
    (hall : cs.all isDotB = true) :
    reMatch Preamble.pattern (kstr Preamble.kCode [.pBytes [b], .pBytes cs]) =
      some [(2, cs), (1, [b])] := by
  show mrun Preamble.pattern [] (bstr "<K141," ++ (b :: 44 :: (cs ++ [62])))
    (fun caps _ => some caps) = some [(2, cs), (1, [b])]
  apply run_seq_lit_k
  apply run_seq_opt_grp_cls (by simp [hb1, hb2])
  show mrun _ _ ([44] ++ (cs ++ [62])) _ = _
  apply run_seq_lit_k
  apply run_seq_opt_grp_reps_tail hall hl1 (hiBound hl4)
  · exact shortTail fun c => rfl
  · rfl

theorem match_Preamble_none {b : Nat} (hb1 : 48 ≤ b) (hb2 : b ≤ 49) :
    reMatch Preamble.pattern (kstr Preamble.kCode [.pBytes [b], .pNone]) =
      some [(1, [b])] := by
  show mrun Preamble.pattern [] (bstr "<K141," ++ (b :: 44 :: [62]))
    (fun caps _ => some caps) = some [(1, [b])]
  apply run_seq_lit_k
  apply run_seq_opt_grp_cls (by simp [hb1, hb2])
  show mrun _ _ ([44] ++ [62]) _ = _
  apply run_seq_lit_k
  apply run_seq_opt_skip
  · rfl
  · rfl

theorem Preamble_roundtrip (fs : List PyVal)
    (h : validDomainB "Preamble" fs = true) :
    famRoundTrip Preamble fs = .ok fs := by
  obtain ⟨v1, v2, rfl, h1, h2⟩ :=
    fieldsOk_two (by simpa [validDomainB, famDomain] using h)
  obtain ⟨bb, rfl, hcont⟩ := enumDom_elim h1
  obtain ⟨b, rfl, hb1, hb2⟩ := vals01_elim hcont
  rcases optCharRun_elim h2 with rfl | hcr
  · refine famRoundTrip_eq rfl (match_Preamble_none hb1 hb2) ?_
    show pyEnum vals01 (some [b]) >>=
      (fun s => pyRaw none >>= fun ch => Except.ok [s, ch]) = _
    rw [pyEnum_ok hcont]
    rfl
  · obtain ⟨cs, rfl, hl1, hl4, hallOk⟩ := charRun_elim hcr
    refine famRoundTrip_eq rfl
      (match_Preamble_bytes hb1 hb2 hl1 hl4 (all_byteOk_isDot hallOk)) ?_
    show pyEnum vals01 (some [b]) >>=
      (fun s => pyRaw (some cs) >>= fun ch => Except.ok [s, ch]) = _
    rw [pyEnum_ok hcont]
    rfl

theorem match_Postamble_bytes {b : Nat} (hb1 : 48 ≤ b) (hb2 : b ≤ 49)
    {cs : List Nat} (hl1 : 1 ≤ cs.length) (hl4 : cs.length ≤ 4)
    (hall : cs.all isDotB = true) :
    reMatch Postamble.pattern (kstr Postamble.kCode [.pBytes [b], .pBytes cs]) =
      some [(2, cs), (1, [b])] := by
  show mrun Postamble.pattern [] (bstr "<K142," ++ (b :: 44 :: (cs ++ [62])))
    (fun caps _ => some caps) = some [(2, cs), (1, [b])]
  apply run_seq_lit_k
  apply run_seq_opt_grp_cls (by simp [hb1, hb2])
  show mrun _ _ ([44] ++ (cs ++ [62])) _ = _
  apply run_seq_lit_k
  apply run_seq_opt_grp_reps_tail hall hl1 (hiBound hl4)
  · exact shortTail fun c => rfl
  · rfl

theorem match_Postamble_none {b : Nat} (hb1 : 48 ≤ b) (hb2 : b ≤ 49) :
    reMatch Postamble.pattern (kstr Postamble.kCode [.pBytes [b], .pNone]) =
      some [(1, [b])] := by
  show mrun Postamble.pattern [] (bstr "<K142," ++ (b :: 44 :: [62]))
    (fun caps _ => some caps) = some [(1, [b])]
  apply run_seq_lit_k
  apply run_seq_opt_grp_cls (by simp [hb1, hb2])
  show mrun _ _ ([44] ++ [62]) _ = _
  apply run_seq_lit_k
  apply run_seq_opt_skip
  · rfl
  · rfl

theorem Postamble_roundtrip (fs : List PyVal)
    (h : validDomainB "Postamble" fs = true) :
    famRoundTrip Postamble fs = .ok fs := by
  obtain ⟨v1, v2, rfl, h1, h2⟩ :=
    fieldsOk_two (by simpa [validDomainB, famDomain] using h)
  obtain ⟨bb, rfl, hcont⟩ := enumDom_elim h1
  obtain ⟨b, rfl, hb1, hb2⟩ := vals01_elim hcont
  rcases optCharRun_elim h2 with rfl | hcr
  · refine famRoundTrip_eq rfl (match_Postamble_none hb1 hb2) ?_
    show pyEnum vals01 (some [b]) >>=
      (fun s => pyRaw none >>= fun ch => Except.ok [s, ch]) = _
    rw [pyEnum_ok hcont]
    rfl
  · obtain ⟨cs, rfl, hl1, hl4, hallOk⟩ := charRun_elim hcr
    refine famRoundTrip_eq rfl
      (match_Postamble_bytes hb1 hb2 hl1 hl4 (all_byteOk_isDot hallOk)) ?_
    show pyEnum vals01 (some [b]) >>=
      (fun s => pyRaw (some cs) >>= fun ch => Except.ok [s, ch]) = _
    rw [pyEnum_ok hcont]
    rfl

theorem match_K450 {b1 b2 : Nat} (h1a : 48 ≤ b1) (h1b : b1 ≤ 49)
    (h2a : 48 ≤ b2) (h2b : b2 ≤ 49) :
    reMatch NarrowMarginsAndSymbologyID.pattern
      (kstr NarrowMarginsAndSymbologyID.kCode [.pBytes [b1], .pBytes [b2]]) =
      some [(2, [b2]), (1, [b1])] := by
  show mrun NarrowMarginsAndSymbologyID.pattern []
    (bstr "<K450," ++ (b1 :: 44 :: b2 :: [62]))
    (fun caps _ => some caps) = some [(2, [b2]), (1, [b1])]
  apply run_seq_lit_k
  apply run_seq_opt_grp_cls (by simp [h1a, h1b])
  apply run_seq_lit1_k
  apply run_seq_opt_grp_cls (by simp [h2a, h2b])
  rfl

theorem NarrowMarginsAndSymbologyID_roundtrip (fs : List PyVal)
    (h : validDomainB "NarrowMarginsAndSymbologyID" fs = true) :
    famRoundTrip NarrowMarginsAndSymbologyID fs = .ok fs := by
  obtain ⟨v1, v2, rfl, h1, h2⟩ :=
    fieldsOk_two (by simpa [validDomainB, famDomain] using h)
  obtain ⟨bb1, rfl, hcont1⟩ := enumDom_elim h1
  obtain ⟨b1, rfl, h1a, h1b⟩ := vals01_elim hcont1
  obtain ⟨bb2, rfl, hcont2⟩ := enumDom_elim h2
  obtain ⟨b2, rfl, h2a, h2b⟩ := vals01_elim hcont2
  refine famRoundTrip_eq rfl (match_K450 h1a h1b h2a h2b) ?_
  show pyEnum vals01 (some [b1]) >>=
    (fun nm => pyEnum vals01 (some [b2]) >>= fun sid => Except.ok [nm, sid]) = _
  rw [pyEnum_ok hcont1, pyEnum_ok hcont2]
  rfl

theorem match_K452 {b1 b2 b3 b4 : Nat}
    (h1a : 48 ≤ b1) (h1b : b1 ≤ 50) (h2a : 48 ≤ b2) (h2b : b2 ≤ 50)
    (h3a : 48 ≤ b3) (h3b : b3 ≤ 50) (h4a : 48 ≤ b4) (h4b : b4 ≤ 50) :
    reMatch SymbolRatioMode.pattern (kstr SymbolRatioMode.kCode
      [.pBytes [b1], .pBytes [b2], .pBytes [b3], .pBytes [b4]]) =
      some [(4, [b4]), (3, [b3]), (2, [b2]), (1, [b1])] := by
  show mrun SymbolRatioMode.pattern []
    (bstr "<K452," ++ (b1 :: 44 :: b2 :: 44 :: b3 :: 44 :: b4 :: [62]))
    (fun caps _ => some caps) = some [(4, [b4]), (3, [b3]), (2, [b2]), (1, [b1])]
  apply run_seq_lit_k
  apply run_seq_opt_grp_cls (by simp [h1a, h1b])
  apply run_seq_lit1_k
  apply run_seq_opt_grp_cls (by simp [h2a, h2b])
  apply run_seq_lit1_k
  apply run_seq_opt_grp_cls (by simp [h3a, h3b])
  apply run_seq_lit1_k
  apply run_seq_opt_grp_cls (by simp [h4a, h4b])
  rfl

theorem SymbolRatioMode_roundtrip (fs : List PyVal)
    (h : validDomainB "SymbolRatioMode" fs = true) :
    famRoundTrip SymbolRatioMode fs = .ok fs := by
  obtain ⟨v1, v2, v3, v4, rfl, h1, h2, h3, h4⟩ :=
    fieldsOk_four (by simpa [validDomainB, famDomain] using h)
  obtain ⟨bb1, rfl, hcont1⟩ := enumDom_elim h1
  obtain ⟨b1, rfl, h1a, h1b⟩ := vals02_elim hcont1
  obtain ⟨bb2, rfl, hcont2⟩ := enumDom_elim h2
  obtain ⟨b2, rfl, h2a, h2b⟩ := vals02_elim hcont2
  obtain ⟨bb3, rfl, hcont3⟩ := enumDom_elim h3
  obtain ⟨b3, rfl, h3a, h3b⟩ := vals02_elim hcont3
  obtain ⟨bb4, rfl, hcont4⟩ := enumDom_elim h4
  obtain ⟨b4, rfl, h4a, h4b⟩ := vals02_elim hcont4
  refine famRoundTrip_eq rfl (match_K452 h1a h1b h2a h2b h3a h3b h4a h4b) ?_
  show pyEnum vals02 (some [b1]) >>= (fun c39 =>
    pyEnum vals02 (some [b2]) >>= fun cb =>
    pyEnum vals02 (some [b3]) >>= fun il =>
    pyEnum vals02 (some [b4]) >>= fun c93 =>
    Except.ok [c39, cb, il, c93]) = _
  rw [pyEnum_ok hcont1, pyEnum_ok hcont2, pyEnum_ok hcont3, pyEnum_ok hcont4]
  rfl

theorem match_K140 {b : Nat} (hb1 : 48 ≤ b) (hb2 : b ≤ 55) :
    reMatch HostProtocol.pattern (kstr HostProtocol.kCode [.pBytes [b]]) =
      some [(1, [b])] := by
  show mrun HostProtocol.pattern [] (bstr "<K140," ++ (b :: [62]))
    (fun caps _ => some caps) = some [(1, [b])]
  apply run_seq_lit_k
  apply run_seq_grp_cls_k (by simp [hb1, hb2])
  apply run_seq_opt_skip
  · rfl
  · rfl

theorem HostProtocol_roundtrip (fs : List PyVal)
    (h : validDomainB "HostProtocol" fs = true) :
    famRoundTrip HostProtocol fs = .ok fs := by
  obtain ⟨v1, rfl, h1⟩ := fieldsOk_one (by simpa [validDomainB, famDomain] using h)
  obtain ⟨bb, rfl, hcont⟩ := enumDom_elim h1
  obtain ⟨b, rfl, hb1, hb2⟩ := vals07_elim hcont
  refine famRoundTrip_eq rfl (match_K140 hb1 hb2) ?_
  show pyEnum vals07 (some [b]) >>= (fun p => Except.ok [p]) = _
  rw [pyEnum_ok hcont]
  rfl

theorem match_K144 {n : Int} (h0 : 0 ≤ n) (h255 : n ≤ 255) :
    reMatch InterCharacterDelay.pattern (kstr InterCharacterDelay.kCode [.pInt n]) =
      some [(1, natDigits n.natAbs)] := by
  show mrun InterCharacterDelay.pattern [] (bstr "<K144," ++ (intStr n ++ [62]))
    (fun caps _ => some caps) = some [(1, natDigits n.natAbs)]
  rw [intStr_nonneg h0]
  apply run_seq_lit_k
  apply run_seq_opt_grp_reps_exact (natDigits_all_digit _) (natDigits_length_pos _)
    (hiBound (natDigits_length_le _ 3 (by omega) (by omega)))
    (head_cons_not (by decide) _)
  rfl

theorem InterCharacterDelay_roundtrip (fs : List PyVal)
    (h : validDomainB "InterCharacterDelay" fs = true) :
    famRoundTrip InterCharacterDelay fs = .ok fs := by
  obtain ⟨v1, rfl, h1⟩ := fieldsOk_one (by simpa [validDomainB, famDomain] using h)
  obtain ⟨n, rfl, hlo, hhi⟩ := intDom_elim h1
  refine famRoundTrip_eq rfl (match_K144 hlo hhi) ?_
  show pyInt (some (natDigits n.natAbs)) >>= (fun d => Except.ok [d]) = _
  rw [pyInt_digits hlo]
  rfl

theorem match_K500 {n : Int} (h30 : 30 ≤ n) (h100 : n ≤ 100) :
    reMatch ScanSpeed.pattern (kstr ScanSpeed.kCode [.pInt n]) =
      some [(1, natDigits n.natAbs)] := by
  show mrun ScanSpeed.pattern [] (bstr "<K500," ++ (intStr n ++ [62]))
    (fun caps _ => some caps) = some [(1, natDigits n.natAbs)]
  rw [intStr_nonneg (by omega)]
  apply run_seq_lit_k
  apply run_seq_opt_grp_reps_exact (natDigits_all_digit _)
    (natDigits_length_ge_two _ (by omega))
    (hiBound (natDigits_length_le _ 3 (by omega) (by omega)))
    (head_cons_not (by decide) _)
  rfl

theorem ScanSpeed_roundtrip (fs : List PyVal)
    (h : validDomainB "ScanSpeed" fs = true) :
    famRoundTrip ScanSpeed fs = .ok fs := by
  obtain ⟨v1, rfl, h1⟩ := fieldsOk_one (by simpa [validDomainB, famDomain] using h)
  obtain ⟨n, rfl, hlo, hhi⟩ := intDom_elim h1
  refine famRoundTrip_eq rfl (match_K500 hlo hhi) ?_
  show pyInt (some (natDigits n.natAbs)) >>= (fun s => Except.ok [s]) = _
  rw [pyInt_digits (by omega)]
  rfl

theorem match_K502 {n : Int} (h0 : 0 ≤ n) (hmax : n ≤ 65535) :
    reMatch MaximumElement.pattern (kstr MaximumElement.kCode [.pInt n]) =
      some [(1, natDigits n.natAbs)] := by
  show mrun MaximumElement.pattern [] (bstr "<K502," ++ (intStr n ++ [62]))
    (fun caps _ => some caps) = some [(1, natDigits n.natAbs)]
  rw [intStr_nonneg h0]
  apply run_seq_lit_k
  apply run_seq_opt_grp_reps_exact (natDigits_all_digit _) (natDigits_length_pos _)
    (hiBound (natDigits_length_le _ 5 (by omega) (by omega)))
    (head_cons_not (by decide) _)
  rfl

theorem MaximumElement_roundtrip (fs : List PyVal)
    (h : validDomainB "MaximumElement" fs = true) :
    famRoundTrip MaximumElement fs = .ok fs := by
  obtain ⟨v1, rfl, h1⟩ := fieldsOk_one (by simpa [validDomainB, famDomain] using h)
  obtain ⟨n, rfl, hlo, hhi⟩ := intDom_elim h1
  refine famRoundTrip_eq rfl (match_K502 hlo hhi) ?_
  show pyInt (some (natDigits n.natAbs)) >>= (fun m => Except.ok [m]) = _
  rw [pyInt_digits hlo]
  rfl

theorem match_K505 {b : Nat} (hb1 : 48 ≤ b) (hb2 : b ≤ 49)
    {n : Int} (h0 : 0 ≤ n) (h255 : n ≤ 255) :
    reMatch SymbolDetect.pattern
      (kstr SymbolDetect.kCode [.pBytes [b], .pInt n]) =
      some [(2, natDigits n.natAbs), (1, [b])] := by
  show mrun SymbolDetect.pattern []
    (bstr "<K505," ++ (b :: 44 :: (intStr n ++ [62])))
    (fun caps _ => some caps) = some [(2, natDigits n.natAbs), (1, [b])]
  rw [intStr_nonneg h0]
  apply run_seq_lit_k
  apply run_seq_opt_grp_cls (by simp [hb1, hb2])
  apply run_seq_lit1_k
  apply run_seq_opt_grp_reps_exact (natDigits_all_digit _) (natDigits_length_pos _)
    (hiBound (natDigits_length_le _ 3 (by omega) (by omega)))
    (head_cons_not (by decide) _)
  rfl

theorem SymbolDetect_roundtrip (fs : List PyVal)
    (h : validDomainB "SymbolDetect" fs = true) :
    famRoundTrip SymbolDetect fs = .ok fs := by
  obtain ⟨v1, v2, rfl, h1, h2⟩ :=
    fieldsOk_two (by simpa [validDomainB, famDomain] using h)
  obtain ⟨bb, rfl, hcont⟩ := enumDom_elim h1
  obtain ⟨b, rfl, hb1, hb2⟩ := vals01_elim hcont
  obtain ⟨n, rfl, hlo, hhi⟩ := intDom_elim h2
  refine famRoundTrip_eq rfl (match_K505 hb1 hb2 hlo hhi) ?_
  show pyEnum vals01 (some [b]) >>= (fun s =>
    pyInt (some (natDigits n.natAbs)) >>= fun c => Except.ok [s, c]) = _
  rw [pyEnum_ok hcont, pyInt_digits hlo]
  rfl

theorem match_K221 {n : Int} (h1 : 1 ≤ n) (h255 : n ≤ 255)
    {b : Nat} (hb1 : 48 ≤ b) (hb2 : b ≤ 49) :
    reMatch DecodesBeforeOutput.pattern
      (kstr DecodesBeforeOutput.kCode [.pInt n, .pBytes [b]]) =
      some [(2, [b]), (1, natDigits n.natAbs)] := by
  show mrun DecodesBeforeOutput.pattern []
    (bstr "<K221," ++ ((intStr n ++ (44 :: [b])) ++ [62]))
    (fun caps _ => some caps) = some [(2, [b]), (1, natDigits n.natAbs)]
  rw [intStr_nonneg (by omega)]
  simp only [List.append_assoc, List.cons_append, List.singleton_append]
  apply run_seq_lit_k
  apply run_seq_opt_grp_reps_exact (natDigits_all_digit _) (natDigits_length_pos _)
    (hiBound (natDigits_length_le _ 3 (by omega) (by omega)))
    (head_cons_not (by decide) _)
  apply run_seq_lit1_k
  apply run_seq_opt_grp_cls (by simp [hb1, hb2])
  rfl

theorem DecodesBeforeOutput_roundtrip (fs : List PyVal)
    (h : validDomainB "DecodesBeforeOutput" fs = true) :
    famRoundTrip DecodesBeforeOutput fs = .ok fs := by
  obtain ⟨v1, v2, rfl, h1, h2⟩ :=
    fieldsOk_two (by simpa [validDomainB, famDomain] using h)
  obtain ⟨n, rfl, hlo, hhi⟩ := intDom_elim h1
  obtain ⟨bb, rfl, hcont⟩ := enumDom_elim h2
  obtain ⟨b, rfl, hb1, hb2⟩ := vals01_elim hcont
  refine famRoundTrip_eq rfl (match_K221 hlo hhi hb1 hb2) ?_
  show pyInt (some (natDigits n.natAbs)) >>= (fun c =>
    pyEnum vals01 (some [b]) >>= fun m => Except.ok [c, m]) = _
  rw [pyInt_digits (by omega), pyEnum_ok hcont]
  rfl

theorem natDigits_single {m : Nat} (h : m < 10) : natDigits m = [48 + m] := by
  rw [natDigits_eq, if_pos h]

theorem match_K200 {b : Nat} (hb1 : 48 ≤ b) (hb2 : b ≤ 53)
    {n : Int} (h0 : 0 ≤ n) :
    reMatch Trigger.pattern (kstr Trigger.kCode [.pBytes [b], .pInt n]) =
      some [(2, natDigits n.natAbs), (1, [b])] := by
  show mrun Trigger.pattern []
    (bstr "<K200," ++ (b :: 44 :: (intStr n ++ [62])))
    (fun caps _ => some caps) = some [(2, natDigits n.natAbs), (1, [b])]
  rw [intStr_nonneg h0]
  apply run_seq_lit_k
  apply run_seq_opt_grp_cls (by simp [hb1, hb2])
  apply run_seq_lit1_k
  apply run_seq_opt_grp_reps_exact (natDigits_all_digit _) (Nat.zero_le _)
    hiNone (head_cons_not (by decide) _)
  rfl

theorem Trigger_roundtrip (fs : List PyVal)
    (h : validDomainB "Trigger" fs = true) :
    famRoundTrip Trigger fs = .ok fs := by
  obtain ⟨v1, v2, rfl, h1, h2⟩ :=
    fieldsOk_two (by simpa [validDomainB, famDomain] using h)
  obtain ⟨bb, rfl, hcont⟩ := enumDom_elim h1
  obtain ⟨b, rfl, hb1, hb2⟩ := vals05_elim hcont
  obtain ⟨n, rfl, hlo⟩ := intGe_elim h2
  refine famRoundTrip_eq rfl (match_K200 hb1 hb2 hlo) ?_
  show pyEnum vals05 (some [b]) >>= (fun m =>
    pyInt (some (natDigits n.natAbs)) >>= fun d => Except.ok [m, d]) = _
  rw [pyEnum_ok hcont, pyInt_digits hlo]
  rfl

theorem match_K220 {b : Nat} (hb1 : 48 ≤ b) (hb2 : b ≤ 50)
    {n : Int} (h0 : 0 ≤ n) :
    reMatch EndReadCycle.pattern (kstr EndReadCycle.kCode [.pBytes [b], .pInt n]) =
      some [(2, natDigits n.natAbs), (1, [b])] := by
  show mrun EndReadCycle.pattern []
    (bstr "<K220," ++ (b :: 44 :: (intStr n ++ [62])))
    (fun caps _ => some caps) = some [(2, natDigits n.natAbs), (1, [b])]
  rw [intStr_nonneg h0]
  apply run_seq_lit_k
  apply run_seq_opt_grp_cls (by simp [hb1, hb2])
  apply run_seq_lit1_k
  apply run_seq_opt_grp_reps_exact (natDigits_all_digit _) (Nat.zero_le _)
    hiNone (head_cons_not (by decide) _)
  rfl

theorem EndReadCycle_roundtrip (fs : List PyVal)
    (h : validDomainB "EndReadCycle" fs = true) :
    famRoundTrip EndReadCycle fs = .ok fs := by
  obtain ⟨v1, v2, rfl, h1, h2⟩ :=
    fieldsOk_two (by simpa [validDomainB, famDomain] using h)
  obtain ⟨bb, rfl, hcont⟩ := enumDom_elim h1
  obtain ⟨b, rfl, hb1, hb2⟩ := vals02_elim hcont
  obtain ⟨n, rfl, hlo, hhi⟩ := intDom_elim h2
  refine famRoundTrip_eq rfl (match_K220 hb1 hb2 hlo) ?_
  show pyEnum vals02 (some [b]) >>= (fun m =>
    pyInt (some (natDigits n.natAbs)) >>= fun t => Except.ok [m, t]) = _
  rw [pyEnum_ok hcont, pyInt_digits hlo]
  rfl

theorem match_K222 {n : Int} (h1 : 1 ≤ n) (h5 : n ≤ 5)
    {c : Nat} (hc : isDotB c = true) :
    reMatch Multisymbol.pattern (kstr Multisymbol.kCode [.pInt n, .pBytes [c]]) =
      some [(2, [c]), (1, natDigits n.natAbs)] := by
  show mrun Multisymbol.pattern []
    (bstr "<K222," ++ ((intStr n ++ (44 :: [c])) ++ [62]))
    (fun caps _ => some caps) = some [(2, [c]), (1, natDigits n.natAbs)]
  rw [intStr_nonneg (by omega), natDigits_single (by omega)]
  simp only [List.append_assoc, List.cons_append, List.singleton_append]
  apply run_seq_lit_k
  apply run_seq_opt_grp_cls (by simp; omega)
  apply run_seq_lit1_k
  apply run_seq_opt_grp_cls hc
  rfl

theorem Multisymbol_roundtrip (fs : List PyVal)
    (h : validDomainB "Multisymbol" fs = true) :
    famRoundTrip Multisymbol fs = .ok fs := by
  obtain ⟨v1, v2, rfl, h1, h2⟩ :=
    fieldsOk_two (by simpa [validDomainB, famDomain] using h)
  obtain ⟨n, rfl, hlo, hhi⟩ := intDom_elim h1
  obtain ⟨cs, rfl, hcl1, hcl2, hok⟩ := charRun_elim h2
  obtain ⟨c, rfl⟩ : ∃ c, cs = [c] := List.length_eq_one.mp (by omega)
  have hdot : isDotB c = true := by
    have := all_byteOk_isDot hok
    simpa using this
  refine famRoundTrip_eq rfl (match_K222 hlo hhi hdot) ?_
  show pyInt (some (natDigits n.natAbs)) >>= (fun m =>
    pyRaw (some [c]) >>= fun sep => Except.ok [m, sep]) = _
  rw [pyInt_digits (by omega)]
  rfl

theorem match_K201 {c : Nat} (hc : isDotB c = true) :
    reMatch SerialTrigger.pattern (kstr SerialTrigger.kCode [.pBytes [c]]) =
      some [(1, [c])] := by
  show mrun SerialTrigger.pattern [] (bstr "<K201," ++ (c :: [62]))
    (fun caps _ => some caps) = some [(1, [c])]
  apply run_seq_lit_k
  apply run_seq_opt_grp_alt_dot hc
  rfl

theorem SerialTrigger_roundtrip (fs : List PyVal)
    (h : validDomainB "SerialTrigger" fs = true) :
    famRoundTrip SerialTrigger fs = .ok fs := by
  obtain ⟨v1, rfl, h1⟩ := fieldsOk_one (by simpa [validDomainB, famDomain] using h)
  obtain ⟨cs, rfl, hcl1, hcl2, hok⟩ := charRun_elim h1
  obtain ⟨c, rfl⟩ : ∃ c, cs = [c] := List.length_eq_one.mp (by omega)
  have hdot : isDotB c = true := by
    have := all_byteOk_isDot hok
    simpa using this
  refine famRoundTrip_eq rfl (match_K201 hdot) ?_
  rfl

theorem match_K229_none :
    reMatch StartTriggerCharacter.pattern
      (kstr StartTriggerCharacter.kCode [.pNone]) = some [] := by
  show mrun StartTriggerCharacter.pattern [] (bstr "<K229," ++ [62])
    (fun caps _ => some caps) = some []
  apply run_seq_lit_k
  apply run_seq_opt_skip
  · rfl
  · rfl

theorem match_K229_hex {a b : Nat} (ha : isHexB a = true) (hb : isHexB b = true) :
    reMatch StartTriggerCharacter.pattern
      (kstr StartTriggerCharacter.kCode [.pBytes [a, b]]) = some [(1, [a, b])] := by
  show mrun StartTriggerCharacter.pattern []
    (bstr "<K229," ++ ([a, b] ++ [62]))
    (fun caps _ => some caps) = some [(1, [a, b])]
  apply run_seq_lit_k
  apply run_seq_opt_grp_reps_exact (by simp [ha, hb]) (by simp)
    (hiBound (by simp)) (head_cons_not (by decide) _)
  rfl

theorem StartTriggerCharacter_roundtrip (fs : List PyVal)
    (h : validDomainB "StartTriggerCharacter" fs = true) :
    famRoundTrip StartTriggerCharacter fs = .ok fs := by
  obtain ⟨v1, rfl, h1⟩ := fieldsOk_one (by simpa [validDomainB, famDomain] using h)
  rcases hexPair_elim h1 with rfl | ⟨a, b, rfl, ha, hb⟩
  · exact famRoundTrip_eq rfl match_K229_none rfl
  · exact famRoundTrip_eq rfl (match_K229_hex ha hb) rfl

theorem match_K230_none :
    reMatch StopTriggerCharacter.pattern
      (kstr StopTriggerCharacter.kCode [.pNone]) = some [] := by
  show mrun StopTriggerCharacter.pattern [] (bstr "<K230," ++ [62])
    (fun caps _ => some caps) = some []
  apply run_seq_lit_k
  apply run_seq_opt_skip
  · rfl
  · rfl

theorem match_K230_hex {a b : Nat} (ha : isHexB a = true) (hb : isHexB b = true) :
    reMatch StopTriggerCharacter.pattern
      (kstr StopTriggerCharacter.kCode [.pBytes [a, b]]) = some [(1, [a, b])] := by
  show mrun StopTriggerCharacter.pattern []
    (bstr "<K230," ++ ([a, b] ++ [62]))
    (fun caps _ => some caps) = some [(1, [a, b])]
  apply run_seq_lit_k
  apply run_seq_opt_grp_reps_exact (by simp [ha, hb]) (by simp)
    (hiBound (by simp)) (head_cons_not (by decide) _)
  rfl

theorem StopTriggerCharacter_roundtrip (fs : List PyVal)
    (h : validDomainB "StopTriggerCharacter" fs = true) :
    famRoundTrip StopTriggerCharacter fs = .ok fs := by
  obtain ⟨v1, rfl, h1⟩ := fieldsOk_one (by simpa [validDomainB, famDomain] using h)
  rcases hexPair_elim h1 with rfl | ⟨a, b, rfl, ha, hb⟩
  · exact famRoundTrip_eq rfl match_K230_none rfl
  · exact famRoundTrip_eq rfl (match_K230_hex ha hb) rfl

theorem run_seq_lit2_k {c1 c2 : Nat} {t : List Nat} {rest : RE} {caps : Caps}
    {k : Caps → List Nat → Option Caps} {r : Caps}
    (hk : mrun rest caps t k = some r) :
    mrun (.seq (.lit [c1, c2]) rest) caps (c1 :: c2 :: t) k = some r := by
  have he : ([c1, c2] : List Nat) ++ t = c1 :: c2 :: t := rfl
  rw [← he]
  exact run_seq_lit_k hk

theorem match_K504 {g mn mx : Int} {b : Nat}
    (hga : 40 ≤ g) (hgb : g ≤ 255) (hb1 : 48 ≤ b) (hb2 : b ≤ 50)
    (hmna : 40 ≤ mn) (hmnb : mn ≤ 250) (hmxa : 60 ≤ mx) (hmxb : mx ≤ 255) :
    reMatch ScannerSetup.pattern
      (kstr ScannerSetup.kCode [.pInt g, .pBytes [b], .pInt mn, .pInt mx]) =
      some [(4, natDigits mx.natAbs), (3, natDigits mn.natAbs), (2, [b]),
        (1, natDigits g.natAbs)] := by
  show mrun ScannerSetup.pattern []
    (bstr "<K504," ++ ((intStr g ++ (44 :: ([b] ++ (44 ::
      (intStr mn ++ (44 :: intStr mx)))))) ++ [62]))
    (fun caps _ => some caps) =
    some [(4, natDigits mx.natAbs), (3, natDigits mn.natAbs), (2, [b]),
      (1, natDigits g.natAbs)]
  rw [intStr_nonneg (show (0 : Int) ≤ g by omega),
    intStr_nonneg (show (0 : Int) ≤ mn by omega),
    intStr_nonneg (show (0 : Int) ≤ mx by omega)]
  simp only [List.append_assoc, List.cons_append, List.singleton_append]
  apply run_seq_lit_k
  apply run_seq_opt_grp_reps_exact (natDigits_all_digit _)
    (natDigits_length_ge_two _ (by omega))
    (hiBound (natDigits_length_le _ 3 (by omega) (by omega)))
    (head_cons_not (by decide) _)
  apply run_seq_lit1_k
  apply run_seq_opt_grp_cls (by simp [hb1, hb2])
  apply run_seq_lit1_k
  apply run_seq_opt_grp_reps_exact (natDigits_all_digit _)
    (natDigits_length_ge_two _ (by omega))
    (hiBound (natDigits_length_le _ 3 (by omega) (by omega)))
    (head_cons_not (by decide) _)
  apply run_seq_lit1_k
  apply run_seq_opt_grp_reps_exact (natDigits_all_digit _)
    (natDigits_length_ge_two _ (by omega))
    (hiBound (natDigits_length_le _ 3 (by omega) (by omega)))
    (head_cons_not (by decide) _)
  rfl

theorem ScannerSetup_roundtrip (fs : List PyVal)
    (h : validDomainB "ScannerSetup" fs = true) :
    famRoundTrip ScannerSetup fs = .ok fs := by
  obtain ⟨v1, v2, v3, v4, rfl, h1, h2, h3, h4⟩ :=
    fieldsOk_four (by simpa [validDomainB, famDomain] using h)
  obtain ⟨g, rfl, hga, hgb⟩ := intDom_elim h1
  obtain ⟨bb, rfl, hcont⟩ := enumDom_elim h2
  obtain ⟨b, rfl, hb1, hb2⟩ := vals02_elim hcont
  obtain ⟨mn, rfl, hmna, hmnb⟩ := intDom_elim h3
  obtain ⟨mx, rfl, hmxa, hmxb⟩ := intDom_elim h4
  refine famRoundTrip_eq rfl
    (match_K504 hga hgb hb1 hb2 hmna hmnb hmxa hmxb) ?_
  show pyInt (some (natDigits g.natAbs)) >>= (fun gain =>
    pyEnum vals02 (some [b]) >>= fun mode =>
    pyInt (some (natDigits mn.natAbs)) >>= fun mnv =>
    pyInt (some (natDigits mx.natAbs)) >>= fun mxv =>
    Except.ok [gain, mode, mnv, mxv]) = _
  rw [pyInt_digits (by omega), pyEnum_ok hcont, pyInt_digits (by omega),
    pyInt_digits (by omega)]
  rfl

theorem match_K700 {b1 b2 b5 : Nat} {onp offp : Int}
    (h1a : 48 ≤ b1) (h1b : b1 ≤ 49) (h2a : 48 ≤ b2) (h2b : b2 ≤ 49)
    (hona : 10 ≤ onp) (honb : onp ≤ 80) (hoffa : 20 ≤ offp) (hoffb : offp ≤ 95)
    (h5a : 48 ≤ b5) (h5b : b5 ≤ 50) :
    reMatch LaserSetup.pattern (kstr LaserSetup.kCode
      [.pBytes [b1], .pBytes [b2], .pInt onp, .pInt offp, .pBytes [b5]]) =
      some [(5, [b5]), (4, natDigits offp.natAbs), (3, natDigits onp.natAbs),
        (2, [b2]), (1, [b1])] := by
  show mrun LaserSetup.pattern []
    (bstr "<K700," ++ (([b1] ++ (44 :: ([b2] ++ (44 ::
      (intStr onp ++ (44 :: (intStr offp ++ (44 :: [b5])))))))) ++ [62]))
    (fun caps _ => some caps) =
    some [(5, [b5]), (4, natDigits offp.natAbs), (3, natDigits onp.natAbs),
      (2, [b2]), (1, [b1])]
  rw [intStr_nonneg (show (0 : Int) ≤ onp by omega),
    intStr_nonneg (show (0 : Int) ≤ offp by omega)]
  simp only [List.append_assoc, List.cons_append, List.singleton_append]
  apply run_seq_lit_k
  apply run_seq_opt_grp_cls (by simp [h1a, h1b])
  apply run_seq_lit1_k
  apply run_seq_opt_grp_cls (by simp [h2a, h2b])
  apply run_seq_lit1_k
  apply run_seq_opt_grp_reps_exact (natDigits_all_digit _)
    (natDigits_length_ge_two _ (by omega))
    (hiBound (natDigits_length_le _ 2 (by omega) (by omega)))
    (head_cons_not (by decide) _)
  apply run_seq_lit1_k
  apply run_seq_opt_grp_reps_exact (natDigits_all_digit _)
    (natDigits_length_ge_two _ (by omega))
    (hiBound (natDigits_length_le _ 2 (by omega) (by omega)))
    (head_cons_not (by decide) _)
  apply run_seq_lit1_k
  apply run_seq_opt_grp_cls (by simp [h5a, h5b])
  rfl

theorem LaserSetup_roundtrip (fs : List PyVal)
    (h : validDomainB "LaserSetup" fs = true) :
    famRoundTrip LaserSetup fs = .ok fs := by
  obtain ⟨v1, v2, v3, v4, v5, rfl, h1, h2, h3, h4, h5⟩ :=
    fieldsOk_five (by simpa [validDomainB, famDomain] using h)
  obtain ⟨bb1, rfl, hcont1⟩ := enumDom_elim h1
  obtain ⟨b1, rfl, h1a, h1b⟩ := vals01_elim hcont1
  obtain ⟨bb2, rfl, hcont2⟩ := enumDom_elim h2
  obtain ⟨b2, rfl, h2a, h2b⟩ := vals01_elim hcont2
  obtain ⟨onp, rfl, hona, honb⟩ := intDom_elim h3
  obtain ⟨offp, rfl, hoffa, hoffb⟩ := intDom_elim h4
  obtain ⟨bb5, rfl, hcont5⟩ := enumDom_elim h5
  obtain ⟨b5, rfl, h5a, h5b⟩ := vals02_elim hcont5
  refine famRoundTrip_eq rfl
    (match_K700 h1a h1b h2a h2b hona honb hoffa hoffb h5a h5b) ?_
  show pyEnum vals01 (some [b1]) >>= (fun onoff =>
    pyEnum vals01 (some [b2]) >>= fun framing =>
    pyInt (some (natDigits onp.natAbs)) >>= fun onv =>
    pyInt (some (natDigits offp.natAbs)) >>= fun offv =>
    pyEnum vals02 (some [b5]) >>= fun pw =>
    Except.ok [onoff, framing, onv, offv, pw]) = _
  rw [pyEnum_ok hcont1, pyEnum_ok hcont2, pyInt_digits (by omega),
    pyInt_digits (by omega), pyEnum_ok hcont5]
  rfl

theorem match_K470 {b1 b2 b3 b4 b5 b7 : Nat} {len : Int}
    (h1a : 48 ≤ b1) (h1b : b1 ≤ 49) (h2a : 48 ≤ b2) (h2b : b2 ≤ 49)
    (h3a : 48 ≤ b3) (h3b : b3 ≤ 49) (h4a : 48 ≤ b4) (h4b : b4 ≤ 49)
    (h5a : 48 ≤ b5) (h5b : b5 ≤ 49) (hla : 1 ≤ len) (hlb : len ≤ 64)
    (h7a : 48 ≤ b7) (h7b : b7 ≤ 49) :
    reMatch Code39.pattern (kstr Code39.kCode
      [.pBytes [b1], .pBytes [b2], .pBytes [b3], .pBytes [b4], .pBytes [b5],
       .pInt len, .pBytes [b7]]) =
      some [(7, [b7]), (6, natDigits len.natAbs), (5, [b5]), (4, [b4]),
        (3, [b3]), (2, [b2]), (1, [b1])] := by
  show mrun Code39.pattern []
    (bstr "<K470," ++ (([b1] ++ (44 :: ([b2] ++ (44 :: ([b3] ++ (44 ::
      ([b4] ++ (44 :: ([b5] ++ (44 :: (intStr len ++ (44 :: [b7]))))))))))))
      ++ [62]))
    (fun caps _ => some caps) =
    some [(7, [b7]), (6, natDigits len.natAbs), (5, [b5]), (4, [b4]),
      (3, [b3]), (2, [b2]), (1, [b1])]
  rw [intStr_nonneg (show (0 : Int) ≤ len by omega)]
  simp only [List.append_assoc, List.cons_append, List.singleton_append]
  apply run_seq_lit_k
  apply run_seq_opt_grp_cls (by simp [h1a, h1b])
  apply run_seq_lit1_k
  apply run_seq_opt_grp_cls (by simp [h2a, h2b])
  apply run_seq_lit1_k
  apply run_seq_opt_grp_cls (by simp [h3a, h3b])
  apply run_seq_lit1_k
  apply run_seq_opt_grp_cls (by simp [h4a, h4b])
  apply run_seq_lit1_k
  apply run_seq_opt_grp_cls (by simp [h5a, h5b])
  apply run_seq_lit1_k
  apply run_seq_opt_grp_reps_exact (natDigits_all_digit _) (natDigits_length_pos _)
    (hiBound (natDigits_length_le _ 2 (by omega) (by omega)))
    (head_cons_not (by decide) _)
  apply run_seq_lit1_k
  apply run_seq_opt_grp_cls (by simp [h7a, h7b])
  rfl

theorem Code39_roundtrip (fs : List PyVal)
    (h : validDomainB "Code39" fs = true) :
    famRoundTrip Code39 fs = .ok fs := by
  obtain ⟨v1, v2, v3, v4, v5, v6, v7, rfl, h1, h2, h3, h4, h5, h6, h7⟩ :=
    fieldsOk_seven (by simpa [validDomainB, famDomain] using h)
  obtain ⟨bb1, rfl, hcont1⟩ := enumDom_elim h1
  obtain ⟨b1, rfl, h1a, h1b⟩ := vals01_elim hcont1
  obtain ⟨bb2, rfl, hcont2⟩ := enumDom_elim h2
  obtain ⟨b2, rfl, h2a, h2b⟩ := vals01_elim hcont2
  obtain ⟨bb3, rfl, hcont3⟩ := enumDom_elim h3
  obtain ⟨b3, rfl, h3a, h3b⟩ := vals01_elim hcont3
  obtain ⟨bb4, rfl, hcont4⟩ := enumDom_elim h4
  obtain ⟨b4, rfl, h4a, h4b⟩ := vals01_elim hcont4
  obtain ⟨bb5, rfl, hcont5⟩ := enumDom_elim h5
  obtain ⟨b5, rfl, h5a, h5b⟩ := vals01_elim hcont5
  obtain ⟨len, rfl, hla, hlb⟩ := intDom_elim h6
  obtain ⟨bb7, rfl, hcont7⟩ := enumDom_elim h7
  obtain ⟨b7, rfl, h7a, h7b⟩ := vals01_elim hcont7
  refine famRoundTrip_eq rfl
    (match_K470 h1a h1b h2a h2b h3a h3b h4a h4b h5a h5b hla hlb h7a h7b) ?_
  show pyEnum vals01 (some [b1]) >>= (fun st =>
    pyEnum vals01 (some [b2]) >>= fun cds =>
    pyEnum vals01 (some [b3]) >>= fun cdo =>
    pyEnum vals01 (some [b4]) >>= fun gap =>
    pyEnum vals01 (some [b5]) >>= fun fsl =>
    pyInt (some (natDigits len.natAbs)) >>= fun lv =>
    pyEnum vals01 (some [b7]) >>= fun fas =>
    Except.ok [st, cds, cdo, gap, fsl, lv, fas]) = _
  rw [pyEnum_ok hcont1, pyEnum_ok hcont2, pyEnum_ok hcont3, pyEnum_ok hcont4,
    pyEnum_ok hcont5, pyInt_digits (by omega), pyEnum_ok hcont7]
  rfl

theorem match_K475 {b1 b2 : Nat} {len : Int}
    (h1a : 48 ≤ b1) (h1b : b1 ≤ 49) (h2a : 48 ≤ b2) (h2b : b2 ≤ 49)
    (hla : 1 ≤ len) (hlb : len ≤ 64) :
    reMatch Code93.pattern (kstr Code93.kCode
      [.pBytes [b1], .pBytes [b2], .pInt len]) =
      some [(3, natDigits len.natAbs), (2, [b2]), (1, [b1])] := by
  show mrun Code93.pattern []
    (bstr "<K475," ++ (([b1] ++ (44 :: ([b2] ++ (44 :: intStr len)))) ++ [62]))
    (fun caps _ => some caps) =
    some [(3, natDigits len.natAbs), (2, [b2]), (1, [b1])]
  rw [intStr_nonneg (show (0 : Int) ≤ len by omega)]
  simp only [List.append_assoc, List.cons_append, List.singleton_append]
  apply run_seq_lit_k
  apply run_seq_opt_grp_cls (by simp [h1a, h1b])
  apply run_seq_lit1_k
  apply run_seq_opt_grp_cls (by simp [h2a, h2b])
  apply run_seq_lit1_k
  apply run_seq_opt_grp_reps_exact (natDigits_all_digit _) (natDigits_length_pos _)
    (hiBound (natDigits_length_le _ 2 (by omega) (by omega)))
    (head_cons_not (by decide) _)
  rfl

theorem Code93_roundtrip (fs : List PyVal)
    (h : validDomainB "Code93" fs = true) :
    famRoundTrip Code93 fs = .ok fs := by
  obtain ⟨v1, v2, v3, rfl, h1, h2, h3⟩ :=
    fieldsOk_three (by simpa [validDomainB, famDomain] using h)
  obtain ⟨bb1, rfl, hcont1⟩ := enumDom_elim h1
  obtain ⟨b1, rfl, h1a, h1b⟩ := vals01_elim hcont1
  obtain ⟨bb2, rfl, hcont2⟩ := enumDom_elim h2
  obtain ⟨b2, rfl, h2a, h2b⟩ := vals01_elim hcont2
  obtain ⟨len, rfl, hla, hlb⟩ := intDom_elim h3
  refine famRoundTrip_eq rfl (match_K475 h1a h1b h2a h2b hla hlb) ?_
  show pyEnum vals01 (some [b1]) >>= (fun st =>
    pyEnum vals01 (some [b2]) >>= fun fslst =>
    pyInt (some (natDigits len.natAbs)) >>= fun fsl =>
    Except.ok [st, fslst, fsl]) = _
  rw [pyEnum_ok hcont1, pyEnum_ok hcont2, pyInt_digits (by omega)]
  rfl

theorem match_K474 {b1 b2 b4 b5 b6 b8 b9 c : Nat} {len : Int}
    (h1a : 48 ≤ b1) (h1b : b1 ≤ 49) (h2a : 48 ≤ b2) (h2b : b2 ≤ 49)
    (hla : 1 ≤ len) (hlb : len ≤ 64) (h4a : 48 ≤ b4) (h4b : b4 ≤ 50)
    (h5a : 48 ≤ b5) (h5b : b5 ≤ 49) (h6a : 48 ≤ b6) (h6b : b6 ≤ 49)
    (hc : isDotB c = true) (h8a : 48 ≤ b8) (h8b : b8 ≤ 49)
    (h9a : 48 ≤ b9) (h9b : b9 ≤ 49) :
    reMatch Code128.pattern (kstr Code128.kCode
      [.pBytes [b1], .pBytes [b2], .pInt len, .pBytes [b4], .pBytes [b5],
       .pBytes [b6], .pBytes [c], .pBytes [b8], .pBytes [b9]]) =
      some [(9, [b9]), (8, [b8]), (7, [c]), (6, [b6]), (5, [b5]), (4, [b4]),
        (3, natDigits len.natAbs), (2, [b2]), (1, [b1])] := by
  show mrun Code128.pattern []
    (bstr "<K474," ++ (([b1] ++ (44 :: ([b2] ++ (44 :: (intStr len ++ (44 ::
      ([b4] ++ (44 :: ([b5] ++ (44 :: ([b6] ++ (44 :: ([c] ++ (44 ::
      ([b8] ++ (44 :: [b9])))))))))))))))) ++ [62]))
    (fun caps _ => some caps) =
    some [(9, [b9]), (8, [b8]), (7, [c]), (6, [b6]), (5, [b5]), (4, [b4]),
      (3, natDigits len.natAbs), (2, [b2]), (1, [b1])]
  rw [intStr_nonneg (show (0 : Int) ≤ len by omega)]
  simp only [List.append_assoc, List.cons_append, List.singleton_append]
  apply run_seq_lit_k
  apply run_seq_opt_grp_cls (by simp [h1a, h1b])
  apply run_seq_lit1_k
  apply run_seq_opt_grp_cls (by simp [h2a, h2b])
  apply run_seq_lit1_k
  apply run_seq_opt_grp_reps_exact (natDigits_all_digit _) (natDigits_length_pos _)
    (hiBound (natDigits_length_le _ 2 (by omega) (by omega)))
    (head_cons_not (by decide) _)
  apply run_seq_lit1_k
  apply run_seq_opt_grp_cls (by simp [h4a, h4b])
  apply run_seq_lit1_k
  apply run_seq_opt_grp_cls (by simp [h5a, h5b])
  apply run_seq_lit1_k
  apply run_seq_opt_grp_cls (by simp [h6a, h6b])
  apply run_seq_lit1_k
  apply run_seq_opt_grp_alt_dot hc
  apply run_seq_lit1_k
  apply run_seq_opt_grp_cls (by simp [h8a, h8b])
  apply run_seq_lit1_k
  apply run_seq_opt_grp_cls (by simp [h9a, h9b])
  rfl

theorem Code128_roundtrip (fs : List PyVal)
    (h : validDomainB "Code128" fs = true) :
    famRoundTrip Code128 fs = .ok fs := by
  obtain ⟨v1, v2, v3, v4, v5, v6, v7, v8, v9, rfl,
    h1, h2, h3, h4, h5, h6, h7, h8, h9⟩ :=
    fieldsOk_nine (by simpa [validDomainB, famDomain] using h)
  obtain ⟨bb1, rfl, hcont1⟩ := enumDom_elim h1
  obtain ⟨b1, rfl, h1a, h1b⟩ := vals01_elim hcont1
  obtain ⟨bb2, rfl, hcont2⟩ := enumDom_elim h2
  obtain ⟨b2, rfl, h2a, h2b⟩ := vals01_elim hcont2
  obtain ⟨len, rfl, hla, hlb⟩ := intDom_elim h3
  obtain ⟨bb4, rfl, hcont4⟩ := enumDom_elim h4
  obtain ⟨b4, rfl, h4a, h4b⟩ := vals02_elim hcont4
  obtain ⟨bb5, rfl, hcont5⟩ := enumDom_elim h5
  obtain ⟨b5, rfl, h5a, h5b⟩ := vals01_elim hcont5
  obtain ⟨bb6, rfl, hcont6⟩ := enumDom_elim h6
  obtain ⟨b6, rfl, h6a, h6b⟩ := vals01_elim hcont6
  obtain ⟨cs, rfl, hcl1, hcl2, hok⟩ := charRun_elim h7
  obtain ⟨c, rfl⟩ : ∃ c, cs = [c] := List.length_eq_one.mp (by omega)
  have hdot : isDotB c = true := by
    have := all_byteOk_isDot hok
    simpa using this
  obtain ⟨bb8, rfl, hcont8⟩ := enumDom_elim h8
  obtain ⟨b8, rfl, h8a, h8b⟩ := vals01_elim hcont8
  obtain ⟨bb9, rfl, hcont9⟩ := enumDom_elim h9
  obtain ⟨b9, rfl, h9a, h9b⟩ := vals01_elim hcont9
  refine famRoundTrip_eq rfl
    (match_K474 h1a h1b h2a h2b hla hlb h4a h4b h5a h5b h6a h6b hdot
      h8a h8b h9a h9b) ?_
  show pyEnum vals01 (some [b1]) >>= (fun st =>
    pyEnum vals01 (some [b2]) >>= fun fslst =>
    pyInt (some (natDigits len.natAbs)) >>= fun lv =>
    pyEnum vals02 (some [b4]) >>= fun ean =>
    pyEnum vals01 (some [b5]) >>= fun fmt =>
    pyEnum vals01 (some [b6]) >>= fun sepst =>
    pyRaw (some [c]) >>= fun sep =>
    pyEnum vals01 (some [b8]) >>= fun br =>
    pyEnum vals01 (some [b9]) >>= fun pad =>
    Except.ok [st, fslst, lv, ean, fmt, sepst, sep, br, pad]) = _
  rw [pyEnum_ok hcont1, pyEnum_ok hcont2, pyInt_digits (by omega),
    pyEnum_ok hcont4, pyEnum_ok hcont5, pyEnum_ok hcont6, pyEnum_ok hcont8,
    pyEnum_ok hcont9]
  rfl

theorem match_K473 {b1 b2 b3 b4 b6 c : Nat} {ud : Int}
    (h1a : 48 ≤ b1) (h1b : b1 ≤ 49) (h2a : 48 ≤ b2) (h2b : b2 ≤ 49)
    (h3a : 48 ≤ b3) (h3b : b3 ≤ 50) (h4a : 48 ≤ b4) (h4b : b4 ≤ 49)
    (hc : isDotB c = true) (h6a : 48 ≤ b6) (h6b : b6 ≤ 49)
    (huda : 0 ≤ ud) (hudb : ud ≤ 1) :
    reMatch UPC_EAN.pattern (kstr UPC_EAN.kCode
      [.pBytes [b1], .pBytes [b2], .pBytes [b3], .pBytes [b4], .pBytes [c],
       .pNone, .pBytes [b6], .pInt ud]) =
      some [(7, natDigits ud.natAbs), (6, [b6]), (5, [c]), (4, [b4]),
        (3, [b3]), (2, [b2]), (1, [b1])] := by
  show mrun UPC_EAN.pattern []
    (bstr "<K473," ++ (([b1] ++ (44 :: ([b2] ++ (44 :: ([b3] ++ (44 ::
      ([b4] ++ (44 :: ([c] ++ (44 :: (44 :: ([b6] ++ (44 :: intStr ud))))))))))))) ++ [62]))
    (fun caps _ => some caps) =
    some [(7, natDigits ud.natAbs), (6, [b6]), (5, [c]), (4, [b4]),
      (3, [b3]), (2, [b2]), (1, [b1])]
  rw [intStr_nonneg huda, natDigits_single (by omega)]
  simp only [List.append_assoc, List.cons_append, List.singleton_append]
  apply run_seq_lit_k
  apply run_seq_opt_grp_cls (by simp [h1a, h1b])
  apply run_seq_lit1_k
  apply run_seq_opt_grp_cls (by simp [h2a, h2b])
  apply run_seq_lit1_k
  apply run_seq_opt_grp_cls (by simp [h3a, h3b])
  apply run_seq_lit1_k
  apply run_seq_opt_grp_cls (by simp [h4a, h4b])
  apply run_seq_lit1_k
  apply run_seq_opt_grp_cls hc
  apply run_seq_lit2_k
  apply run_seq_opt_grp_cls (by simp [h6a, h6b])
  apply run_seq_lit1_k
  apply run_seq_opt_grp_cls (by simp; omega)
  rfl

theorem UPC_EAN_roundtrip (fs : List PyVal)
    (h : validDomainB "UPC_EAN" fs = true) :
    famRoundTrip UPC_EAN fs = .ok fs := by
  obtain ⟨v1, v2, v3, v4, v5, v6, v7, rfl, h1, h2, h3, h4, h5, h6, h7⟩ :=
    fieldsOk_seven (by simpa [validDomainB, famDomain] using h)
  obtain ⟨bb1, rfl, hcont1⟩ := enumDom_elim h1
  obtain ⟨b1, rfl, h1a, h1b⟩ := vals01_elim hcont1
  obtain ⟨bb2, rfl, hcont2⟩ := enumDom_elim h2
  obtain ⟨b2, rfl, h2a, h2b⟩ := vals01_elim hcont2
  obtain ⟨bb3, rfl, hcont3⟩ := enumDom_elim h3
  obtain ⟨b3, rfl, h3a, h3b⟩ := vals02_elim hcont3
  obtain ⟨bb4, rfl, hcont4⟩ := enumDom_elim h4
  obtain ⟨b4, rfl, h4a, h4b⟩ := vals01_elim hcont4
  obtain ⟨cs, rfl, hcl1, hcl2, hok⟩ := charRun_elim h5
  obtain ⟨c, rfl⟩ : ∃ c, cs = [c] := List.length_eq_one.mp (by omega)
  have hdot : isDotB c = true := by
    have := all_byteOk_isDot hok
    simpa using this
  obtain ⟨bb6, rfl, hcont6⟩ := enumDom_elim h6
  obtain ⟨b6, rfl, h6a, h6b⟩ := vals01_elim hcont6
  obtain ⟨ud, rfl, huda, hudb⟩ := intDom_elim h7
  refine famRoundTrip_eq rfl
    (match_K473 h1a h1b h2a h2b h3a h3b h4a h4b hdot h6a h6b huda hudb) ?_
  show pyEnum vals01 (some [b1]) >>= (fun upc =>
    pyEnum vals01 (some [b2]) >>= fun ean =>
    pyEnum vals02 (some [b3]) >>= fun suppl =>
    pyEnum vals01 (some [b4]) >>= fun sepst =>
    pyRaw (some [c]) >>= fun sep =>
    pyEnum vals01 (some [b6]) >>= fun upce =>
    pyInt (some (natDigits ud.natAbs)) >>= fun undoc =>
    Except.ok [upc, ean, suppl, sepst, sep, upce, undoc]) = _
  rw [pyEnum_ok hcont1, pyEnum_ok hcont2, pyEnum_ok hcont3, pyEnum_ok hcont4,
    pyEnum_ok hcont6, pyInt_digits huda]
  rfl

theorem match_K100 {b1 b2 b3 b4 : Nat}
    (h1a : 48 ≤ b1) (h1b : b1 ≤ 56) (h2a : 48 ≤ b2) (h2b : b2 ≤ 50)
    (h3a : 48 ≤ b3) (h3b : b3 ≤ 49) (h4a : 48 ≤ b4) (h4b : b4 ≤ 49) :
    reMatch HostPortConnection.pattern (kstr HostPortConnection.kCode
      [.pBytes [b1], .pBytes [b2], .pBytes [b3], .pBytes [b4]]) =
      some [(4, [b4]), (3, [b3]), (2, [b2]), (1, [b1])] := by
  show mrun HostPortConnection.pattern []
    (bstr "<K100," ++ (([b1] ++ (44 :: ([b2] ++ (44 :: ([b3] ++ (44 :: [b4]))))))
      ++ [62]))
    (fun caps _ => some caps) = some [(4, [b4]), (3, [b3]), (2, [b2]), (1, [b1])]
  simp only [List.append_assoc, List.cons_append, List.singleton_append]
  apply run_seq_lit_k
  apply run_seq_grp_cls_k (by simp [h1a, h1b])
  apply run_seq_lit1_k
  apply run_seq_grp_cls_k (by simp [h2a, h2b])
  apply run_seq_lit1_k
  apply run_seq_grp_cls_k (by simp [h3a, h3b])
  apply run_seq_lit1_k
  apply run_seq_grp_cls_k (by simp [h4a, h4b])
  rfl

theorem hostport_core (bv : Int) (bd : Nat)
    (hser : serialize_baud_rate (.pInt bv) = .ok [bd])
    (hdes : deserialize_baud_rate (some [bd]) = .ok (.pInt bv))
    (hbd1 : 48 ≤ bd) (hbd2 : bd ≤ 56)
    {b2 b3 b4 : Nat}
    (h2a : 48 ≤ b2) (h2b : b2 ≤ 50) (h3a : 48 ≤ b3) (h3b : b3 ≤ 49)
    (h4a : 48 ≤ b4) (h4b : b4 ≤ 49)
    (hc2 : vals02.contains [b2] = true) (hc3 : vals01.contains [b3] = true)
    (hc4 : vals01.contains [b4] = true) :
    famRoundTrip HostPortConnection
      [.pInt bv, .pBytes [b2], .pBytes [b3], .pBytes [b4]] =
      .ok [.pInt bv, .pBytes [b2], .pBytes [b3], .pBytes [b4]] := by
  refine famRoundTrip_eq ?_ (match_K100 hbd1 hbd2 h2a h2b h3a h3b h4a h4b) ?_
  · show serialize_baud_rate (PyVal.pInt bv) >>= (fun bdv =>
      Except.ok [PyVal.pBytes bdv, PyVal.pBytes [b2], PyVal.pBytes [b3],
        PyVal.pBytes [b4]]) =
      Except.ok [PyVal.pBytes [bd], PyVal.pBytes [b2], PyVal.pBytes [b3],
        PyVal.pBytes [b4]]
    rw [hser]
    rfl
  · show deserialize_baud_rate (some [bd]) >>= (fun baud =>
      pyEnum vals02 (some [b2]) >>= fun parity =>
      pyEnum vals01 (some [b3]) >>= fun stop =>
      pyEnum vals01 (some [b4]) >>= fun data =>
      Except.ok [baud, parity, stop, data]) = _
    rw [hdes, pyEnum_ok hc2, pyEnum_ok hc3, pyEnum_ok hc4]
    rfl

theorem HostPortConnection_roundtrip (fs : List PyVal)
    (h : validDomainB "HostPortConnection" fs = true) :
    famRoundTrip HostPortConnection fs = .ok fs := by
  obtain ⟨v1, v2, v3, v4, rfl, h1, h2, h3, h4⟩ :=
    fieldsOk_four (by simpa [validDomainB, famDomain] using h)
  obtain ⟨bb2, rfl, hcont2⟩ := enumDom_elim h2
  obtain ⟨b2, rfl, h2a, h2b⟩ := vals02_elim hcont2
  obtain ⟨bb3, rfl, hcont3⟩ := enumDom_elim h3
  obtain ⟨b3, rfl, h3a, h3b⟩ := vals01_elim hcont3
  obtain ⟨bb4, rfl, hcont4⟩ := enumDom_elim h4
  obtain ⟨b4, rfl, h4a, h4b⟩ := vals01_elim hcont4
  rcases baud_elim h1 with rfl | rfl | rfl | rfl | rfl | rfl | rfl | rfl | rfl
  · exact hostport_core 600 48 rfl rfl (by omega) (by omega)
      h2a h2b h3a h3b h4a h4b hcont2 hcont3 hcont4
  · exact hostport_core 1200 49 rfl rfl (by omega) (by omega)
      h2a h2b h3a h3b h4a h4b hcont2 hcont3 hcont4
  · exact hostport_core 2400 50 rfl rfl (by omega) (by omega)
      h2a h2b h3a h3b h4a h4b hcont2 hcont3 hcont4
  · exact hostport_core 4800 51 rfl rfl (by omega) (by omega)
      h2a h2b h3a h3b h4a h4b hcont2 hcont3 hcont4
  · exact hostport_core 9600 52 rfl rfl (by omega) (by omega)
      h2a h2b h3a h3b h4a h4b hcont2 hcont3 hcont4
  · exact hostport_core 19200 53 rfl rfl (by omega) (by omega)
      h2a h2b h3a h3b h4a h4b hcont2 hcont3 hcont4
  · exact hostport_core 38400 54 rfl rfl (by omega) (by omega)
      h2a h2b h3a h3b h4a h4b hcont2 hcont3 hcont4
  · exact hostport_core 57600 55 rfl rfl (by omega) (by omega)
      h2a h2b h3a h3b h4a h4b hcont2 hcont3 hcont4
  · exact hostport_core 115200 56 rfl rfl (by omega) (by omega)
      h2a h2b h3a h3b h4a h4b hcont2 hcont3 hcont4

theorem match_K101 {b1 bd b3 b4 b5 b6 : Nat} {cs : List Nat}
    (h1a : 48 ≤ b1) (h1b : b1 ≤ 53) (hbd1 : 48 ≤ bd) (hbd2 : bd ≤ 56)
    (h3a : 48 ≤ b3) (h3b : b3 ≤ 50) (h4a : 48 ≤ b4) (h4b : b4 ≤ 49)
    (h5a : 48 ≤ b5) (h5b : b5 ≤ 49) (h6a : 48 ≤ b6) (h6b : b6 ≤ 49)
    (hcl1 : 1 ≤ cs.length) (hcl2 : cs.length ≤ 2)
    (hall : cs.all isDotB = true) :
    reMatch RS232AuxiliaryPort.pattern (kstr RS232AuxiliaryPort.kCode
      [.pBytes [b1], .pBytes [bd], .pBytes [b3], .pBytes [b4], .pBytes [b5],
       .pBytes [b6], .pBytes cs]) =
      some [(7, cs), (6, [b6]), (5, [b5]), (4, [b4]), (3, [b3]), (2, [bd]),
        (1, [b1])] := by
  show mrun RS232AuxiliaryPort.pattern []
    (bstr "<K101," ++ (([b1] ++ (44 :: ([bd] ++ (44 :: ([b3] ++ (44 ::
      ([b4] ++ (44 :: ([b5] ++ (44 :: ([b6] ++ (44 :: cs)))))))))))) ++ [62]))
    (fun caps _ => some caps) =
    some [(7, cs), (6, [b6]), (5, [b5]), (4, [b4]), (3, [b3]), (2, [bd]),
      (1, [b1])]
  simp only [List.append_assoc, List.cons_append, List.singleton_append]
  apply run_seq_lit_k
  apply run_seq_grp_cls_k (by simp [h1a, h1b])
  apply run_seq_lit1_k
  apply run_seq_grp_cls_k (by simp [hbd1, hbd2])
  apply run_seq_lit1_k
  apply run_seq_grp_cls_k (by simp [h3a, h3b])
  apply run_seq_lit1_k
  apply run_seq_grp_cls_k (by simp [h4a, h4b])
  apply run_seq_lit1_k
  apply run_seq_grp_cls_k (by simp [h5a, h5b])
  apply run_seq_lit1_k
  apply run_seq_grp_cls_k (by simp [h6a, h6b])
  apply run_seq_lit1_k
  apply run_seq_opt_grp_reps_tail hall hcl1 (hiBound hcl2)
  · exact shortTail fun c => rfl
  · rfl

theorem rs232_core (bv : Int) (bd : Nat)
    (hser : serialize_baud_rate (.pInt bv) = .ok [bd])
    (hdes : deserialize_baud_rate (some [bd]) = .ok (.pInt bv))
    (hbd1 : 48 ≤ bd) (hbd2 : bd ≤ 56)
    {b1 b3 b4 b5 b6 : Nat} {cs : List Nat}
    (h1a : 48 ≤ b1) (h1b : b1 ≤ 53) (h3a : 48 ≤ b3) (h3b : b3 ≤ 50)
    (h4a : 48 ≤ b4) (h4b : b4 ≤ 49) (h5a : 48 ≤ b5) (h5b : b5 ≤ 49)
    (h6a : 48 ≤ b6) (h6b : b6 ≤ 49)
    (hc1 : vals05.contains [b1] = true) (hc3 : vals02.contains [b3] = true)
    (hc4 : vals01.contains [b4] = true) (hc5 : vals01.contains [b5] = true)
    (hc6 : vals01.contains [b6] = true)
    (hcl1 : 1 ≤ cs.length) (hcl2 : cs.length ≤ 2) (hok : cs.all byteOk = true) :
    famRoundTrip RS232AuxiliaryPort
      [.pBytes [b1], .pInt bv, .pBytes [b3], .pBytes [b4], .pBytes [b5],
       .pBytes [b6], .pBytes cs] =
      .ok [.pBytes [b1], .pInt bv, .pBytes [b3], .pBytes [b4], .pBytes [b5],
       .pBytes [b6], .pBytes cs] := by
  refine famRoundTrip_eq ?_
    (match_K101 h1a h1b hbd1 hbd2 h3a h3b h4a h4b h5a h5b h6a h6b hcl1 hcl2
      (all_byteOk_isDot hok)) ?_
  · show serialize_baud_rate (PyVal.pInt bv) >>= (fun bdv =>
      Except.ok [PyVal.pBytes [b1], PyVal.pBytes bdv, PyVal.pBytes [b3],
        PyVal.pBytes [b4], PyVal.pBytes [b5], PyVal.pBytes [b6],
        PyVal.pBytes cs]) =
      Except.ok [PyVal.pBytes [b1], PyVal.pBytes [bd], PyVal.pBytes [b3],
        PyVal.pBytes [b4], PyVal.pBytes [b5], PyVal.pBytes [b6],
        PyVal.pBytes cs]
    rw [hser]
    rfl
  · show pyEnum vals05 (some [b1]) >>= (fun mode =>
      deserialize_baud_rate (some [bd]) >>= fun baud =>
      pyEnum vals02 (some [b3]) >>= fun parity =>
      pyEnum vals01 (some [b4]) >>= fun stop =>
      pyEnum vals01 (some [b5]) >>= fun data =>
      pyEnum vals01 (some [b6]) >>= fun dstat =>
      pyRaw (some cs) >>= fun did =>
      Except.ok [mode, baud, parity, stop, data, dstat, did]) = _
    rw [pyEnum_ok hc1, hdes, pyEnum_ok hc3, pyEnum_ok hc4, pyEnum_ok hc5,
      pyEnum_ok hc6]
    rfl

theorem RS232AuxiliaryPort_roundtrip (fs : List PyVal)
    (h : validDomainB "RS232AuxiliaryPort" fs = true) :
    famRoundTrip RS232AuxiliaryPort fs = .ok fs := by
  obtain ⟨v1, v2, v3, v4, v5, v6, v7, rfl, h1, h2, h3, h4, h5, h6, h7⟩ :=
    fieldsOk_seven (by simpa [validDomainB, famDomain] using h)
  obtain ⟨bb1, rfl, hcont1⟩ := enumDom_elim h1
  obtain ⟨b1, rfl, h1a, h1b⟩ := vals05_elim hcont1
  obtain ⟨bb3, rfl, hcont3⟩ := enumDom_elim h3
  obtain ⟨b3, rfl, h3a, h3b⟩ := vals02_elim hcont3
  obtain ⟨bb4, rfl, hcont4⟩ := enumDom_elim h4
  obtain ⟨b4, rfl, h4a, h4b⟩ := vals01_elim hcont4
  obtain ⟨bb5, rfl, hcont5⟩ := enumDom_elim h5
  obtain ⟨b5, rfl, h5a, h5b⟩ := vals01_elim hcont5
  obtain ⟨bb6, rfl, hcont6⟩ := enumDom_elim h6
  obtain ⟨b6, rfl, h6a, h6b⟩ := vals01_elim hcont6
  obtain ⟨cs, rfl, hcl1, hcl2, hok⟩ := charRun_elim h7
  rcases baud_elim h2 with rfl | rfl | rfl | rfl | rfl | rfl | rfl | rfl | rfl
  · exact rs232_core 600 48 rfl rfl (by omega) (by omega)
      h1a h1b h3a h3b h4a h4b h5a h5b h6a h6b hcont1 hcont3 hcont4 hcont5
      hcont6 hcl1 hcl2 hok
  · exact rs232_core 1200 49 rfl rfl (by omega) (by omega)
      h1a h1b h3a h3b h4a h4b h5a h5b h6a h6b hcont1 hcont3 hcont4 hcont5
      hcont6 hcl1 hcl2 hok
  · exact rs232_core 2400 50 rfl rfl (by omega) (by omega)
      h1a h1b h3a h3b h4a h4b h5a h5b h6a h6b hcont1 hcont3 hcont4 hcont5
      hcont6 hcl1 hcl2 hok
  · exact rs232_core 4800 51 rfl rfl (by omega) (by omega)
      h1a h1b h3a h3b h4a h4b h5a h5b h6a h6b hcont1 hcont3 hcont4 hcont5
      hcont6 hcl1 hcl2 hok
  · exact rs232_core 9600 52 rfl rfl (by omega) (by omega)
      h1a h1b h3a h3b h4a h4b h5a h5b h6a h6b hcont1 hcont3 hcont4 hcont5
      hcont6 hcl1 hcl2 hok
  · exact rs232_core 19200 53 rfl rfl (by omega) (by omega)
      h1a h1b h3a h3b h4a h4b h5a h5b h6a h6b hcont1 hcont3 hcont4 hcont5
      hcont6 hcl1 hcl2 hok
  · exact rs232_core 38400 54 rfl rfl (by omega) (by omega)
      h1a h1b h3a h3b h4a h4b h5a h5b h6a h6b hcont1 hcont3 hcont4 hcont5
      hcont6 hcl1 hcl2 hok
  · exact rs232_core 57600 55 rfl rfl (by omega) (by omega)
      h1a h1b h3a h3b h4a h4b h5a h5b h6a h6b hcont1 hcont3 hcont4 hcont5
      hcont6 hcl1 hcl2 hok
  · exact rs232_core 115200 56 rfl rfl (by omega) (by omega)
      h1a h1b h3a h3b h4a h4b h5a h5b h6a h6b hcont1 hcont3 hcont4 hcont5
      hcont6 hcl1 hcl2 hok

/-! ## Claim C1 -/

/-- C1 (counterexample): the claim "decode(encode(instance)) == instance
field-for-field, including field types such as str versus bytes" fails
on `SerialTrigger` at its own documented default `'^'`, which the class
stores as a Python *str*: the fragment `<K201,^>` round-trips to the
*bytes* value `b'^'`, which is not equal to the str `'^'` (in Python,
`b'^' == '^'` is `False`). -/
theorem c1_round_trip_counterexample :
    famRoundTrip SerialTrigger [.pStr "^"] = .ok [.pBytes [94]] ∧
    ([PyVal.pBytes [94]] : List PyVal) ≠ [PyVal.pStr "^"] := by
  constructor
  · rfl
  · decide

/-- C1 (amended): for every registered setting family and every instance
whose field values lie within the family's documented valid domain *with
character-valued fields represented as bytes* (the wire-normalized form
that decoding itself produces), `decode(encode(instance))` succeeds and
returns an instance equal to the original field-for-field.  (The
amendment is forced by `c1_round_trip_counterexample`: str-typed
character fields — including several of the library's own defaults —
come back as the equal-looking bytes value, so the round-trip is the
identity only on bytes-typed instances.) -/
theorem c1_round_trip (f : KFamily) (hf : f ∈ REGISTRY) (fs : List PyVal)
    (h : validDomainB f.clsName fs = true) :
    famRoundTrip f fs = .ok fs := by
  simp only [REGISTRY, List.mem_cons, List.not_mem_nil, or_false] at hf
  rcases hf with rfl | rfl | rfl | rfl | rfl | rfl | rfl | rfl | rfl | rfl |
    rfl | rfl | rfl | rfl | rfl | rfl | rfl | rfl | rfl | rfl | rfl | rfl |
    rfl | rfl | rfl | rfl | rfl | rfl | rfl
  · exact HostPortConnection_roundtrip fs h
  · exact HostProtocol_roundtrip fs h
  · exact HostRS422Status_roundtrip fs h
  · exact RS232AuxiliaryPort_roundtrip fs h
  · exact Preamble_roundtrip fs h
  · exact Postamble_roundtrip fs h
  · exact LRC_roundtrip fs h
  · exact InterCharacterDelay_roundtrip fs h
  · exact Multisymbol_roundtrip fs h
  · exact Trigger_roundtrip fs h
  · exact ExternalTrigger_roundtrip fs h
  · exact SerialTrigger_roundtrip fs h
  · exact StartTriggerCharacter_roundtrip fs h
  · exact StopTriggerCharacter_roundtrip fs h
  · exact EndReadCycle_roundtrip fs h
  · exact DecodesBeforeOutput_roundtrip fs h
  · exact ScanSpeed_roundtrip fs h
  · exact ScannerSetup_roundtrip fs h
  · exact SymbolDetect_roundtrip fs h
  · exact MaximumElement_roundtrip fs h
  · exact ScanWidthEnhance_roundtrip fs h
  · exact LaserSetup_roundtrip fs h
  · exact Code39_roundtrip fs h
  · exact Code128_roundtrip fs h
  · exact UPC_EAN_roundtrip fs h
  · exact Code93_roundtrip fs h
  · exact NarrowMarginsAndSymbologyID_roundtrip fs h
  · exact BackgroundColor_roundtrip fs h
  · exact SymbolRatioMode_roundtrip fs h

/-- C1 witness: the amended round-trip theorem applied at concrete
instances — a `HostPortConnection` at 38400 baud with even parity, a
`Trigger` in serial-data mode with filter duration 9999, and a `Preamble`
with unset characters. -/
theorem c1_round_trip_witness :
    (validDomainB "HostPortConnection"
        [.pInt 38400, .pBytes [49], .pBytes [48], .pBytes [49]] = true ∧
      famRoundTrip HostPortConnection
        [.pInt 38400, .pBytes [49], .pBytes [48], .pBytes [49]] =
        .ok [.pInt 38400, .pBytes [49], .pBytes [48], .pBytes [49]]) ∧
    (validDomainB "Trigger" [.pBytes [52], .pInt 9999] = true ∧
      famRoundTrip Trigger [.pBytes [52], .pInt 9999] =
        .ok [.pBytes [52], .pInt 9999]) ∧
    (validDomainB "Preamble" [.pBytes [49], .pNone] = true ∧
      famRoundTrip Preamble [.pBytes [49], .pNone] =
        .ok [.pBytes [49], .pNone]) :=
  ⟨⟨by decide,
    c1_round_trip HostPortConnection (by simp [REGISTRY]) _ (by decide)⟩,
   ⟨by decide, c1_round_trip Trigger (by simp [REGISTRY]) _ (by decide)⟩,
   ⟨by decide, c1_round_trip Preamble (by simp [REGISTRY]) _ (by decide)⟩⟩

/-! ## Claim C2 — grammar rejection -/

/-- C2: for every registered setting family, a fragment the family's
grammar does not match decodes to `InvalidConfigString` (the spec's
MalformedConfigString) and to nothing else — the failed-match branch of
`from_config_string` is the only outcome for structurally mismatched
input.  Concretely: a wrong field count (`<K100,4,0>`), an out-of-range
enumerated digit (`<K100,4,9,1,0>`, stop-bits digit `9` outside `[0-1]`)
and a non-numeric value in a numeric slot (`<K144,abc>`) all fail with
exactly this error. -/
theorem c2_grammar_rejection :
    (∀ f : KFamily, f ∈ REGISTRY → ∀ s : List Nat,
      reMatch f.pattern s = none →
      famFromConfigString f s = .error .invalidConfigString) ∧
    famFromConfigString HostPortConnection (bstr "<K100,4,0>") =
      .error .invalidConfigString ∧
    famFromConfigString HostPortConnection (bstr "<K100,4,9,1,0>") =
      .error .invalidConfigString ∧
    famFromConfigString InterCharacterDelay (bstr "<K144,abc>") =
      .error .invalidConfigString := by
  refine ⟨?_, rfl, rfl, rfl⟩
  intro f hf s h
  unfold famFromConfigString
  rw [h]

/-- C2 witness: the grammar-rejection theorem applied to `Trigger` and
the fragment `<K200,1>` (wrong field count: one comma missing). -/
theorem c2_grammar_rejection_witness :
    Trigger ∈ REGISTRY ∧
    reMatch Trigger.pattern (bstr "<K200,1>") = none ∧
    famFromConfigString Trigger (bstr "<K200,1>") =
      .error .invalidConfigString :=
  ⟨by simp [REGISTRY], rfl,
    c2_grammar_rejection.1 Trigger (by simp [REGISTRY]) (bstr "<K200,1>") rfl⟩

/-! ## Claim C3 — batch construction from wire fragments -/

/-- C3 (counterexample): the claim says a fragment whose identifier is
missing is "skipped and logged", but the `except (IndexError,
AttributeError): continue` branch of `from_config_strings` logs nothing:
the batch `[b'<X>']` (no K-code at all) produces the default aggregate
with an *empty* log — only the registry-miss branch (`except KeyError`)
calls `logger.info`. -/
theorem c3_batch_counterexample :
    from_config_strings [bstr "<X>"] false =
      .ok (MicroscanConfiguration_init, []) := rfl

/-- C3 (amended): building an aggregate from a batch of fragments
(1) decodes and stores registered fragments and logs (without aborting)
unregistered K-codes — the batch `[b'<K100,4,0,1,0>', b'<K999,1>']`
yields `host_port_connection` = (9600 baud, no parity, one stop bit,
seven data bits) and a log entry for `K999` only; (2) propagates the
codec's decode failure as a hard error when a registered identifier's
parameters do not match its grammar (`<K100,4,0>`); (3) skips a
fragment with no identifier *silently* (empty log); and (4) lets a
later fragment for the same identifier overwrite an earlier one. -/
theorem c3_batch_processing :
    (from_config_strings [bstr "<K100,4,0,1,0>", bstr "<K999,1>"] false).map
        (fun r => (r.1 "host_port_connection", r.2)) =
      .ok (some [.pInt 9600, .pBytes [48], .pBytes [49], .pBytes [48]],
        [bstr "K999"]) ∧
    from_config_strings [bstr "<K100,4,0>"] false =
      .error .invalidConfigString ∧
    (from_config_strings [bstr "<X>"] false).map (fun r => r.2) = .ok [] ∧
    (from_config_strings
        [bstr "<K100,4,0,1,0>", bstr "<K100,6,1,0,1>"] false).map
        (fun r => r.1 "host_port_connection") =
      .ok (some [.pInt 38400, .pBytes [49], .pBytes [48], .pBytes [49]]) :=
  ⟨rfl, rfl, rfl, rfl⟩

/-! ## Claim C4 — optional parameters absent on the wire -/

/-- C4 (counterexample): the claim "integer slots decode the empty
string to None rather than raising; e.g. `Trigger.decode(b'<K200,,>')`
returns an instance" is false: in `<K200,,>` the *enum* slot is empty,
so `TriggerMode(None)` raises `ValueError`, and even with a valid mode,
`<K200,0,>` makes the integer slot the empty string and `int(b'')`
raises `ValueError` — the source never maps empty to `None`. -/
theorem c4_optional_empty_counterexample :
    famFromConfigString Trigger (bstr "<K200,,>") = .error .valueError ∧
    famFromConfigString Trigger (bstr "<K200,0,>") = .error .valueError :=
  ⟨rfl, rfl⟩

/-- C4 (amended): an optional parameter absent on the wire decodes to
the unset sentinel `None` only for slots whose captured group is passed
through unconverted: a character-run slot (`Preamble` characters in
`<K141,0,>`) and a hex-pair slot (`StartTriggerCharacter` in `<K229,>`)
become `None`.  Slots that are *converted* raise instead: an empty enum
slot raises `ValueError` (`TriggerMode(None)`), an empty integer slot
raises `ValueError` (`int(b'')`) and an absent integer slot raises
`TypeError` (`int(None)`, at `<K144,>`). -/
theorem c4_optional_empty :
    (∀ st : Nat, st = 48 ∨ st = 49 →
      famFromConfigString Preamble (bstr "<K141," ++ [st] ++ bstr ",>") =
        .ok [.pBytes [st], .pNone]) ∧
    famFromConfigString StartTriggerCharacter (bstr "<K229,>") =
      .ok [.pNone] ∧
    famFromConfigString Trigger (bstr "<K200,,>") = .error .valueError ∧
    famFromConfigString InterCharacterDelay (bstr "<K144,>") =
      .error .typeError := by
  refine ⟨?_, rfl, rfl, rfl⟩
  rintro st (rfl | rfl) <;> rfl

/-- C4 witness: the amended theorem applied at preamble status `b'0'`
(byte 48) with the preamble characters absent. -/
theorem c4_optional_empty_witness :
    ((48 : Nat) = 48 ∨ (48 : Nat) = 49) ∧
    famFromConfigString Preamble (bstr "<K141," ++ [48] ++ bstr ",>") =
      .ok [.pBytes [48], .pNone] :=
  ⟨Or.inl rfl, c4_optional_empty.1 48 (Or.inl rfl)⟩

/-! ## Claim C5 — baud-rate table misses -/

/-- C5: what an out-of-table baud value or wire digit actually raises.
The spec promises `UnknownBaudRate` (the handler's descriptive
`ValueError`), but both `_serialize_baud_rate` and
`_deserialize_baud_rate` guard their dict lookups with
`except IndexError:`, and a Python dict miss raises `KeyError`, which
`except IndexError` does not catch — so the out-of-table failure
escapes as a bare `KeyError` and the handler is dead code.  In-table
values translate correctly (38400 ↔ wire digit `6`, wire digit `4` ↔
9600). -/
theorem c5_baud_rate_eval :
    serialize_baud_rate (.pInt 300) = .error .keyError ∧
    deserialize_baud_rate (some (bstr "9")) = .error .keyError ∧
    serialize_baud_rate (.pInt 38400) = .ok (bstr "6") ∧
    deserialize_baud_rate (some (bstr "4")) = .ok (.pInt 9600) :=
  ⟨rfl, rfl, rfl, rfl⟩

/-! ## Claim C6 — buffered barcode read -/

/-- C6: the buffered branch of `read_barcode` does *not* return the
symbol "whenever at least two delimited segments exist": the guard is
`len(lines) > 2`, and a buffer holding exactly one symbol followed by
one postamble (`b'ABC\r\n'`, which splits into the two segments
`[b'ABC', b'']`) fails it and falls back to the blocking `readline()` —
after `read_all()` has already drained the buffer, so the symbol is
lost.  Two symbols (`b'A\r\nB\r\n'`, three segments) return the last
complete symbol `b'B'` as the comment in the source intends. -/
theorem c6_read_barcode_eval :
    read_barcode_buffered (bstr "ABC\r\n") = none ∧
    read_barcode_buffered (bstr "A\r\nB\r\n") = some (bstr "B") :=
  ⟨rfl, rfl⟩

/-! ## Claim C7 — writeConfig without a cached configuration -/

/-- C7: with no cached configuration, `write_config` raises `TypeError`
(the spec's NoConfigurationLoaded: the `isinstance` guard fires) before
anything is written to the transport — no suspend command, no blob, no
resume command; with a cached aggregate whose serialization succeeds it
writes exactly the suspend command `<I>`, the serialized blob and the
resume command `<H>`, in that order, and raises nothing. -/
theorem c7_write_config_guard :
    write_config none = ([], some PyErr.typeError) ∧
    (∀ (c : MSConfig) (blob : List Nat),
      MicroscanConfiguration_to_config_string c [] = .ok blob →
      write_config (some c) = ([bstr "<I>", blob, bstr "<H>"], none)) := by
  refine ⟨rfl, ?_⟩
  intro c blob h
  show (match MicroscanConfiguration_to_config_string c [] with
    | Except.error e => ([bstr "<I>"], some e)
    | Except.ok blob => ([bstr "<I>", blob, bstr "<H>"], none)) =
    ([bstr "<I>", blob, bstr "<H>"], none)
  rw [h]

set_option maxRecDepth 100000 in
set_option maxHeartbeats 4000000 in
/-- C7 witness: the cached-aggregate branch applied to the default
configuration, whose serialization is the default blob. -/
theorem c7_write_config_guard_witness :
    MicroscanConfiguration_to_config_string MicroscanConfiguration_init [] =
      .ok DEFAULT_CONFIG_BLOB ∧
    write_config (some MicroscanConfiguration_init) =
      ([bstr "<I>", DEFAULT_CONFIG_BLOB, bstr "<H>"], none) :=
  ⟨rfl,
    c7_write_config_guard.2 MicroscanConfiguration_init DEFAULT_CONFIG_BLOB rfl⟩

/-! ## Claim C8 — deterministic default serialization -/

set_option maxRecDepth 100000 in
set_option maxHeartbeats 4000000 in
/-- C8: the default aggregate (construction is deterministic: the
constructor is `load_defaults` over the fixed registry, so any two
independently constructed default aggregates are the same attribute
map) serializes to the byte-identical default blob; serialization
iterates the registry in order, serializes every present slot and joins
the 29 fragments with the caller-supplied separator, the default empty
separator yielding their plain concatenation. -/
theorem c8_default_serialization :
    MicroscanConfiguration_to_config_string MicroscanConfiguration_init [] =
      .ok DEFAULT_CONFIG_BLOB ∧
    (∀ sep : List Nat,
      MicroscanConfiguration_to_config_string MicroscanConfiguration_init sep =
        .ok (List.intercalate sep DEFAULT_CONFIG_FRAGMENTS)) ∧
    DEFAULT_CONFIG_BLOB = List.intercalate [] DEFAULT_CONFIG_FRAGMENTS :=
  ⟨rfl, fun _ => rfl, rfl⟩

/-! ## Claim C9 — HostPortConnection literal scenarios -/

/-- C9: `HostPortConnection.from_config_string(b'<K100,6,1,0,1>')`
yields baud_rate 38400, parity EVEN (`b'1'`), stop_bits ONE (`b'0'`),
data_bits EIGHT (`b'1'`), and encoding an instance with baud 9600,
parity EVEN, stop_bits ONE, data_bits SEVEN (`b'0'`) yields exactly
`b'<K100,4,1,0,0>'`. -/
theorem c9_hostport_scenarios :
    famFromConfigString HostPortConnection (bstr "<K100,6,1,0,1>") =
      .ok [.pInt 38400, .pBytes [49], .pBytes [48], .pBytes [49]] ∧
    famToConfigString HostPortConnection
        [.pInt 9600, .pBytes [49], .pBytes [48], .pBytes [48]] =
      .ok (bstr "<K100,4,1,0,0>") :=
  ⟨rfl, rfl⟩

/-! ## Claim C10 — the defaults flag is a no-op -/

/-- Pointwise value of the `load_defaults` fold over any registry list:
the defaults of the last list entry whose property name is `x`, or the
underlying attribute if no entry matches. -/
theorem foldl_set_apply (l : List KFamily) (c : MSConfig) (x : String) :
    (l.foldl (fun acc f => setattrC acc (clsname_to_propname f.clsName) f.defaults) c) x =
    match l.reverse.find? (fun f => clsname_to_propname f.clsName == x) with
    | some f => some f.defaults
    | none => c x := by
  induction l generalizing c with
  | nil => rfl
  | cons f t ih =>
    rw [List.foldl_cons, ih, List.reverse_cons, List.find?_append]
    cases h : t.reverse.find? (fun g => clsname_to_propname g.clsName == x) with
    | some g => rfl
    | none =>
      show setattrC c (clsname_to_propname f.clsName) f.defaults x =
        (match List.find? (fun g => clsname_to_propname g.clsName == x) [f] with
          | some g => some g.defaults
          | none => c x)
      by_cases hx : x = clsname_to_propname f.clsName
      · simp [setattrC, List.find?, hx]
      · simp only [setattrC, if_neg hx, List.find?]
        have : (clsname_to_propname f.clsName == x) = false := by
          simp only [beq_eq_false_iff_ne, ne_eq]
          exact fun hc => hx hc.symm
        rw [this]

/-- `load_defaults` is idempotent: running it on the freshly constructed
(already defaulted) instance changes nothing. -/
theorem load_defaults_idem :
    load_defaults MicroscanConfiguration_init = MicroscanConfiguration_init := by
  funext x
  show load_defaults (load_defaults emptyInstanceC) x = load_defaults emptyInstanceC x
  rw [show load_defaults (load_defaults emptyInstanceC) x =
      (match REGISTRY.reverse.find? (fun f => clsname_to_propname f.clsName == x) with
        | some f => some f.defaults
        | none => load_defaults emptyInstanceC x) from
    foldl_set_apply REGISTRY (load_defaults emptyInstanceC) x]
  rw [show load_defaults emptyInstanceC x =
      (match REGISTRY.reverse.find? (fun f => clsname_to_propname f.clsName == x) with
        | some f => some f.defaults
        | none => emptyInstanceC x) from
    foldl_set_apply REGISTRY emptyInstanceC x]
  cases h : REGISTRY.reverse.find? (fun f => clsname_to_propname f.clsName == x) with
  | some f => rfl
  | none => rfl

/-- C10: the constructor already pre-populates every slot with the
family defaults, so `from_config_strings(lines, defaults=True)` and
`from_config_strings(lines, defaults=False)` build field-for-field
equal aggregates for every fragment list, and the empty fragment list
yields the full default configuration under either flag. -/
theorem c10_defaults_flag :
    (∀ lines : List (List Nat),
      from_config_strings lines true = from_config_strings lines false) ∧
    (∀ d : Bool,
      from_config_strings [] d = .ok (MicroscanConfiguration_init, [])) := by
  constructor
  · intro lines
    show lines.foldlM processLine (load_defaults MicroscanConfiguration_init, []) =
      lines.foldlM processLine (MicroscanConfiguration_init, [])
    rw [load_defaults_idem]
  · intro d
    cases d
    · rfl
    · show List.foldlM processLine
          (load_defaults MicroscanConfiguration_init, []) [] =
        Except.ok (MicroscanConfiguration_init, [])
      rw [load_defaults_idem]
      rfl
